import Mathlib

/-!
# Verification of the aquiche cache engine

A shallow embedding, in Lean 4, of the core of the `aquiche` memoization
library: the LRU key→record repository (`aquiche/_repository.py`), the
cached-record state machines (`aquiche/_cache.py`, `aquiche/_sync_cache.py`),
the retry/backoff executor, the expiration engine
(`aquiche/_expiration.py`, `aquiche/utils/_time_parse.py`,
`aquiche/utils/_extraction_utils.py`, `aquiche/utils/_scanner.py`,
`aquiche/utils/_sum_expression_parser.py`) and the synchronous LRU wrapper
(`aquiche/_alru_cache.py`).

Modelling conventions used throughout:
* Python `datetime` values are rational timestamps (seconds since the epoch,
  UTC).  The library normalises naive datetimes to UTC by reinterpreting the
  clock reading, which is the identity in this representation.
* Python `timedelta` values are rational numbers of seconds.
* Exceptions are modelled with `Except PyErr`; raising a cached error object
  is `PyErr.userRaised v`.
* A Python callable with a fixed parameter list raises `TypeError` when called
  with the wrong number of arguments; `PyCallable` models this.
* Mutation is modelled by explicit state passing; an object mutated through an
  alias (e.g. a record stored in the repository) is written back at the call
  site that holds the alias.
-/

namespace Aquiche

/-- The Python values that flow through the cache engine in the scenarios the
claims quantify over: primitives, timestamps, durations, dictionaries,
attribute-carrying objects, exception objects and (opaque) callables.
Dict and object fields are association lists keyed by strings. -/
inductive PyVal where
  | none
  | bool (b : Bool)
  | int (n : ℤ)
  | float (q : ℚ)
  | str (s : String)
  /-- a timezone-aware UTC `datetime`, as seconds since the epoch -/
  | datetime (t : ℚ)
  /-- a `timedelta`, as seconds -/
  | timedelta (d : ℚ)
  | dict (kvs : List (String × PyVal))
  | obj (attrs : List (String × PyVal))
  /-- an exception object (e.g. one produced by a failing user function) -/
  | exception (msg : String)
  /-- an opaque callable; `isCoroutine` reflects `iscoroutinefunction` -/
  | callable (id : Nat) (isCoroutine : Bool)

/-- The exceptions of the engine: the typed errors of `aquiche/errors.py`,
the Python builtins that its code can raise (`TypeError` from an
arity-mismatched call, `KeyError` from `del` on a missing key,
`RecursionError` from unbounded recursion), and `userRaised v` for a
re-raised cached error object `v`. -/
inductive PyErr where
  | typeError
  | keyError
  | valueError
  | overflowError
  | assertionError
  | recursionError
  | userRaised (v : PyVal)
  | invalidExpirationType
  | invalidCacheConfig
  | dateError (s : String)
  | dateTimeError (s : String)
  | timeError (s : String)
  | durationError (s : String)
  | invalidExpressionError (s : String)
  | invalidTimeFormatError (s : String)
  | extractionError (path : String)
  | invalidSyncExpirationType
  | deadlockError

/-- A Python callable with a declared positional-parameter count: calling it
with a different number of arguments raises `TypeError` (this is how CPython
treats `lambda _key, record: ...` applied to one argument). -/
structure PyCallable (α β : Type) where
  arity : Nat
  fn : List α → Except PyErr β

/-- Call a `PyCallable`: Python checks the argument count against the
parameter list before running the body (which may itself raise). -/
def PyCallable.call {α β : Type} (f : PyCallable α β) (args : List α) :
    Except PyErr β :=
  if args.length = f.arity then f.fn args else .error .typeError

/-! ## The LRU repository (`aquiche/_repository.py`, class `LRUCacheRepository`)

The source keeps a hashmap `__cache : key → node` plus a circular doubly
linked list of nodes `[prev, next, key, result]` anchored at a root sentinel;
`root.NEXT` is the oldest entry, `root.PREV` the newest.  We represent the
ring by `entries`, the list of `(key, result)` pairs read from `root.NEXT`
to `root.PREV` (oldest first); the root sentinel is implicit and the hashmap
holds exactly the keys of `entries`.  Keys are `Nat` (the engine requires
only equality and hash of `CacheKey`). -/
structure LRUCacheRepository (α : Type) where
  /-- the data nodes of the circular list, oldest (`root.NEXT`) first -/
  entries : List (Nat × α)
  /-- `__maxsize = maxsize or 0` (so `None` is stored as `0`) -/
  maxsize : Nat
  /-- the `__full` flag -/
  full : Bool

namespace LRUCacheRepository

variable {α : Type}

/-- `LRUCacheRepository(maxsize)`: empty ring, `__maxsize = maxsize or 0`,
`__full = False`. -/
def init (maxsize : Option Nat) : LRUCacheRepository α :=
  { entries := [], maxsize := maxsize.getD 0, full := false }

/-- `has`: `key in self.__cache`. -/
def has (r : LRUCacheRepository α) (key : Nat) : Bool :=
  r.entries.any fun kv => kv.1 == key

/-- `get_size`: `len(self.__cache)`. -/
def get_size (r : LRUCacheRepository α) : Nat :=
  r.entries.length

/-- `add(key, value)`.
* If the key is present: do nothing.
* Else if `__full`: the old root stores `(key, value)` and becomes the newest
  node; the oldest node (`old_root.NEXT`) becomes the new root after its key
  is deleted from the hashmap — i.e. drop the head of `entries` and append
  `(key, value)`.  When the ring holds no data node (reachable after
  `clear()`, which leaves `__full` set), `old_key` is the key that was just
  written into the root, and `del self.__cache[old_key]` raises `KeyError`.
* Else: append a new link at the tail and recompute
  `__full = (maxsize != 0) and get_size() >= maxsize`. -/
def add (r : LRUCacheRepository α) (key : Nat) (value : α) :
    Except PyErr (LRUCacheRepository α) :=
  if r.has key then
    .ok r
  else if r.full then
    match r.entries with
    | [] => .error .keyError
    | _ :: tl => .ok { r with entries := tl ++ [(key, value)] }
  else
    .ok { r with
          entries := r.entries ++ [(key, value)]
          full := (r.maxsize != 0) && decide (r.entries.length + 1 ≥ r.maxsize) }

/-- `get(key)`: `None` when absent; otherwise unlink the node and relink it
in front of the root (most-recently-used end), returning its result. -/
def get (r : LRUCacheRepository α) (key : Nat) :
    Option α × LRUCacheRepository α :=
  match r.entries.find? (fun kv => kv.1 == key) with
  | Option.none => (Option.none, r)
  | some (_, v) =>
      (some v,
       { r with entries := (r.entries.eraseP fun kv => kv.1 == key) ++ [(key, v)] })

/-- `get_no_adjust(key)`: plain lookup, no relinking. -/
def get_no_adjust (r : LRUCacheRepository α) (key : Nat) : Option α :=
  (r.entries.find? fun kv => kv.1 == key).map Prod.snd

/-- `add_no_adjust(key, value)`: append a link at the tail unconditionally
(used by the uncapped wrapper only for missing keys) and recompute `__full`. -/
def add_no_adjust (r : LRUCacheRepository α) (key : Nat) (value : α) :
    LRUCacheRepository α :=
  { r with
    entries := r.entries ++ [(key, value)]
    full := (r.maxsize != 0) && decide (r.entries.length + 1 ≥ r.maxsize) }

/-- `clear()`: empty the hashmap and reset the ring to the lone root.
The source does *not* reset `__full`. -/
def clear (r : LRUCacheRepository α) : LRUCacheRepository α :=
  { r with entries := [] }

/-- The ring walk of `filter` with its removal bookkeeping. -/
def filterGo (condition : PyCallable α Bool) :
    List (Nat × α) → List α → List (Nat × α) →
      Except PyErr (List α × List (Nat × α))
  | [], removed, kept => .ok (removed, kept)
  | kv :: rest, removed, kept =>
      match condition.call [kv.2] with
      | .error e => .error e
      | .ok b =>
          if b then filterGo condition rest removed (kept ++ [kv])
          else filterGo condition rest (removed ++ [kv.2]) kept

/-- `filter(condition)`: walk the ring from `root.NEXT`; each data node's
result is passed to `condition` as a *single* argument
(`condition(value)` in the source); nodes for which it returns false are
unlinked (`__delete_node`), their keys deleted, and their results collected.
An exception from the call propagates. -/
def filter (r : LRUCacheRepository α) (condition : PyCallable α Bool) :
    Except PyErr (List α × LRUCacheRepository α) :=
  (filterGo condition r.entries [] []).map fun p =>
    (p.1, { r with entries := p.2 })

/-- The iteration of `every` over `self.__cache.values()` (insertion
order). -/
def everyGo (applyFunction : PyCallable α Unit) :
    List (Nat × α) → Except PyErr Unit
  | [] => .ok ()
  | kv :: rest =>
      match applyFunction.call [kv.2] with
      | .error e => .error e
      | .ok _ => everyGo applyFunction rest

/-- `every(apply_function)`: apply the function to each stored result, again
with a *single* argument (`apply_function(result)` in the source).  The first
exception propagates. -/
def every (r : LRUCacheRepository α) (applyFunction : PyCallable α Unit) :
    Except PyErr Unit :=
  everyGo applyFunction r.entries

/-- Replace the stored result for `key` in place, leaving the ring order
unchanged.  This is not a repository method: it models mutation of a stored
record through the alias returned by `get` (the wrapper calls
`record.get_cached()` on the object the hashmap still points to). -/
def setValue (r : LRUCacheRepository α) (key : Nat) (value : α) :
    LRUCacheRepository α :=
  { r with
    entries := r.entries.map fun kv => if kv.1 == key then (key, value) else kv }

/-- Fold `add` over a list of insertions (`for k, v in kvs: repo.add(k, v)`). -/
def addAll (r : LRUCacheRepository α) (kvs : List (Nat × α)) :
    Except PyErr (LRUCacheRepository α) :=
  kvs.foldlM (fun acc kv => acc.add kv.1 kv.2) r

/-- The keys currently stored (the domain of the hashmap). -/
def keys (r : LRUCacheRepository α) : List Nat :=
  r.entries.map Prod.fst

end LRUCacheRepository

/-! ## Python string primitives

The string methods the sources rely on (`str.strip`, `str.lower`,
`str.split`, `str.startswith`, `int(...)` of a digit run), written out over
the character list.  The inputs in scope are ASCII, for which these match
Python's semantics. -/

/-- The numeric value of a run of ASCII digits. -/
def digitsToNat (cs : List Char) : Nat :=
  cs.foldl (fun acc c => acc * 10 + (c.toNat - '0'.toNat)) 0

/-- ASCII lower-casing of one character. -/
def lowerChar (c : Char) : Char :=
  if 'A' ≤ c && c ≤ 'Z' then Char.ofNat (c.toNat + 32) else c

/-- `str.lower()`. -/
def pyLower (s : String) : String :=
  String.mk (s.data.map lowerChar)

/-- ASCII whitespace (the characters `str.strip()` removes here). -/
def isPyWS (c : Char) : Bool :=
  c == ' ' || c == '\t' || c == '\n' ||
    c == Char.ofNat 11 || c == Char.ofNat 12 || c == '\r'

/-- `str.strip()`. -/
def pyStripWS (s : String) : String :=
  String.mk (((s.data.dropWhile isPyWS).reverse.dropWhile isPyWS).reverse)

/-- `str.startswith(pre)`. -/
def pyStartsWith (s pre : String) : Bool :=
  pre.data.isPrefixOf s.data

/-- The walk of `str.split(".")`. -/
def splitOnDotGo : List Char → List Char → List String
  | [], acc => [String.mk acc.reverse]
  | '.' :: rest, acc => String.mk acc.reverse :: splitOnDotGo rest []
  | c :: rest, acc => splitOnDotGo rest (c :: acc)

/-- `str.split(".")` (note `"".split(".") == [""]`). -/
def pySplitOnDot (s : String) : List String :=
  splitOnDotGo s.data []

/-! ## Tokenizer (`aquiche/utils/_scanner.py`)

The scanner walks a stripped input string with a one-character lookahead
(`TERMINATOR = "\x00"` past the end) and produces one token per `scan()`
call.  Character classes come from `curses.ascii` and are ASCII-only. -/

/-- `curses.ascii.isalpha` (ASCII letters only). -/
def isalphaA (c : Char) : Bool :=
  ('a' ≤ c && c ≤ 'z') || ('A' ≤ c && c ≤ 'Z')

/-- `curses.ascii.isdigit` (ASCII digits only). -/
def isdigitA (c : Char) : Bool :=
  '0' ≤ c && c ≤ '9'

/-- `curses.ascii.isspace` (ASCII whitespace only). -/
def isspaceA (c : Char) : Bool :=
  c == ' ' || c == '\t' || c == '\n' ||
    c == Char.ofNat 11 || c == Char.ofNat 12 || c == '\r'

/-- The `TERMINATOR` lookahead character. -/
def terminatorChar : Char := Char.ofNat 0

inductive TokenType where
  | NONE
  | NUMBER
  | IDENTIFIER
  | TERMINATOR
deriving DecidableEq

structure Scanner where
  input : List Char
  look : Char
  index : Nat
  token : String
  tokenType : TokenType
  position : Nat

namespace Scanner

/-- `__next`: advance the lookahead, or park on the terminator at the end. -/
def next (s : Scanner) : Scanner :=
  if s.index ≥ s.input.length then { s with look := terminatorChar }
  else { s with look := s.input.getD s.index terminatorChar, index := s.index + 1 }

/-- The `while isspace(self.look): self.__next()` loop of `scan`.  Each
iteration advances `index`, so `input.length + 1` steps of fuel always
suffice. -/
def skipSpaces : Nat → Scanner → Scanner
  | 0, s => s
  | fuel + 1, s => if isspaceA s.look then skipSpaces fuel s.next else s

/-- The do-while run-collection loop of `scan` (`token += look; next; stop
when the class no longer matches`); same fuel argument as `skipSpaces`. -/
def readRun (p : Char → Bool) : Nat → Scanner → Scanner
  | 0, s => s
  | fuel + 1, s =>
      let s' := { s.next with token := s.token.push s.look }
      if p s'.look then readRun p fuel s' else s'

/-- `scan()`: skip whitespace, then read an identifier, a number, the
terminator, or a single unclassified character. -/
def scan (s : Scanner) : Scanner :=
  let s := skipSpaces (s.input.length + 1) s
  let s := { s with token := "", position := s.index - 1 }
  if isalphaA s.look then
    { readRun isalphaA (s.input.length + 1) s with tokenType := .IDENTIFIER }
  else if isdigitA s.look then
    { readRun isdigitA (s.input.length + 1) s with tokenType := .NUMBER }
  else if s.look == terminatorChar then
    { s with tokenType := .TERMINATOR }
  else
    { s.next with tokenType := .NONE }

/-- `start_scan(input)`: strip the input, reset, prime the lookahead and scan
the first token. -/
def startScan (input : String) : Scanner :=
  let cs := (pyStripWS input).data
  let s : Scanner :=
    { input := cs, look := terminatorChar, index := 0, token := ""
      tokenType := .NONE, position := 0 }
  s.next.scan

end Scanner

/-! ## Sum-expression parser (`aquiche/utils/_sum_expression_parser.py`)

`parse` alternates `__evaluate_number` and `__evaluate_identifier` until the
terminator, accumulating `number * value_mapping[identifier]`.  The parser is
configured case-insensitively (`case_sensitive=False`), so the mapping keys
are lowered once and each identifier token is lowered before lookup. -/

structure SumExpressionParserConfig where
  caseSensitive : Bool
  valueMapping : List (String × Int)

namespace SumExpressionParser

/-- `int(self.scanner.token)` for a token made of ASCII digits. -/
def tokenToInt (t : String) : Int :=
  (digitsToNat t.data : Int)

/-- `__evaluate_number`. -/
def evaluateNumber (s : Scanner) : Except PyErr (Int × Scanner) :=
  if s.tokenType ≠ .NUMBER then
    .error (.invalidExpressionError "expected number")
  else
    .ok (tokenToInt s.token, s.scan)

/-- `__evaluate_identifier`. -/
def evaluateIdentifier (cfg : SumExpressionParserConfig) (s : Scanner) :
    Except PyErr (Int × Scanner) :=
  if s.tokenType ≠ .IDENTIFIER then
    .error (.invalidExpressionError "expected identifier")
  else
    let token := if cfg.caseSensitive then s.token else pyLower s.token
    match cfg.valueMapping.find? (fun kv => kv.1 == token) with
    | Option.none => .error (.invalidExpressionError "unknown identifier")
    | some (_, v) => .ok (v, s.scan)

/-- The `while self.scanner.token_type != TokenType.TERMINATOR` loop of
`parse`; every iteration consumes at least one input character, so
`input.length + 1` iterations of fuel always suffice. -/
def parseLoop (cfg : SumExpressionParserConfig) :
    Nat → Scanner → Int → Except PyErr Int
  | 0, _, acc => .ok acc
  | fuel + 1, s, acc =>
      if s.tokenType = .TERMINATOR then .ok acc
      else do
        let (num, s) ← evaluateNumber s
        let (ident, s) ← evaluateIdentifier cfg s
        parseLoop cfg fuel s (acc + num * ident)

/-- `parse(input_string)`. -/
def parse (cfg : SumExpressionParserConfig) (input : String) :
    Except PyErr Int :=
  let cfg :=
    if cfg.caseSensitive then cfg
    else { cfg with valueMapping := cfg.valueMapping.map fun kv => (pyLower kv.1, kv.2) }
  parseLoop cfg (input.length + 1) (Scanner.startScan input) 0

end SumExpressionParser

/-- The `custom_duration_parser` configuration of
`aquiche/utils/_time_parse.py`: case-insensitive unit aliases for seconds,
minutes, hours and days. -/
def customDurationParserConfig : SumExpressionParserConfig :=
  { caseSensitive := false
    valueMapping :=
      [("second", 1), ("seconds", 1), ("s", 1),
       ("minute", 60), ("minutes", 60), ("m", 60),
       ("hour", 3600), ("hours", 3600), ("h", 3600),
       ("day", 24 * 3600), ("days", 24 * 3600), ("d", 24 * 3600)] }

/-! ## A small backtracking regex engine

Embeds the anchored `re` patterns of `aquiche/utils/_time_parse.py`.
Alternatives are enumerated in Python's backtracking order (left alternative
first, greedy quantifiers longest-first), so the head of the result list is
the match Python's `re.match` finds.  Named groups capture the matched text;
for `groupdict`, a group that did not participate reports `None`
(`Capts.group` returns the last binding of the name, if any).  Recursion is
fueled; every concrete evaluation in this file uses ample fuel
(`reMatch` passes fuel that dominates the pattern size times the input
length for the embedded patterns). -/

inductive RE where
  | eps
  | chr (c : Char)
  | cls (f : Char → Bool)
  | seq (a b : RE)
  | alt (a b : RE)
  | opt (a : RE)
  | star (a : RE)
  | group (name : String) (a : RE)
  | lookahead (a : RE)
  | eos

namespace RE

abbrev Capts := List (String × String)

/-- All ways to match `re` against a prefix of `cs`, as
`(remaining suffix, captures)`, in Python's backtracking priority order. -/
def run : Nat → RE → List Char → List (List Char × Capts)
  | 0, _, _ => []
  | _ + 1, .eps, cs => [(cs, [])]
  | _ + 1, .chr c, cs =>
      match cs with
      | [] => []
      | x :: rest => if x == c then [(rest, [])] else []
  | _ + 1, .cls f, cs =>
      match cs with
      | [] => []
      | x :: rest => if f x then [(rest, [])] else []
  | fuel + 1, .seq a b, cs =>
      (run fuel a cs).flatMap fun rc =>
        (run fuel b rc.1).map fun rc2 => (rc2.1, rc.2 ++ rc2.2)
  | fuel + 1, .alt a b, cs => run fuel a cs ++ run fuel b cs
  | fuel + 1, .opt a, cs => run fuel a cs ++ [(cs, [])]
  | fuel + 1, .star a, cs =>
      ((run fuel a cs).flatMap fun rc =>
        (run fuel (.star a) rc.1).map fun rc2 => (rc2.1, rc.2 ++ rc2.2))
      ++ [(cs, [])]
  | fuel + 1, .group name a, cs =>
      (run fuel a cs).map fun rc =>
        (rc.1, rc.2 ++ [(name, String.mk (cs.take (cs.length - rc.1.length)))])
  | fuel + 1, .lookahead a, cs =>
      if (run fuel a cs).isEmpty then [] else [(cs, [])]
  | _ + 1, .eos, cs => if cs.isEmpty then [(cs, [])] else []

/-- `match.groupdict()[name]`: the last text captured under `name`, or
`None` when the group did not participate. -/
def Capts.group (caps : Capts) (name : String) : Option String :=
  (caps.reverse.find? fun kv => kv.1 == name).map Prod.snd

/-- `pattern.match(s)` for the anchored patterns used here: the
highest-priority alternative is the match Python finds. -/
def reMatch (re : RE) (s : String) : Option Capts :=
  ((run (4096 + 64 * s.length) re s.data).head?).map Prod.snd

/-- `a{n}` (exactly `n` repetitions). -/
def repExact (a : RE) : Nat → RE
  | 0 => .eps
  | n + 1 => .seq a (repExact a n)

/-- `a{0,n}` (at most `n` repetitions, greedy). -/
def repUpTo (a : RE) : Nat → RE
  | 0 => .eps
  | n + 1 => .opt (.seq a (repUpTo a n))

/-- `a{lo,hi}` (greedy). -/
def repRange (a : RE) (lo hi : Nat) : RE :=
  .seq (repExact a lo) (repUpTo a (hi - lo))

/-- `a+` (greedy). -/
def plus (a : RE) : RE :=
  .seq a (.star a)

/-- `\d`. -/
def digit : RE := .cls isdigitA

/-- `.` (any character except a newline). -/
def anyChar : RE := .cls fun c => c != '\n'

/-- Chain a list of regexes in sequence. -/
def seqAll (l : List RE) : RE :=
  l.foldr RE.seq .eps

/-- A literal string. -/
def lit (s : String) : RE :=
  seqAll (s.data.map RE.chr)

end RE

/-! ## The `re` patterns of `aquiche/utils/_time_parse.py` -/

namespace TimeParse

open RE

/-- `-?\d+`. -/
def signedInt : RE :=
  .seq (.opt (.chr '-')) (RE.plus RE.digit)

/-- `\d+(.\d+)?` (note: the `.` of the source pattern is an unescaped "any
character", not a literal dot; the inner parenthesis is an unnamed group,
invisible to `groupdict`). -/
def numFrac : RE :=
  .seq (RE.plus RE.digit) (.opt (.seq RE.anyChar (RE.plus RE.digit)))

/-- `DATE_EXPR = (?P<year>\d{4})-(?P<month>\d{1,2})-(?P<day>\d{1,2})`. -/
def dateExpr : RE :=
  seqAll [.group "year" (repExact digit 4), .chr '-',
          .group "month" (repRange digit 1 2), .chr '-',
          .group "day" (repRange digit 1 2)]

/-- `TIME_EXPR`:
`(?P<hour>\d{1,2}):(?P<minute>\d{1,2})`
`(?::(?P<second>\d{1,2})(?:\.(?P<microsecond>\d{1,6})\d{0,6})?)?`
`(?P<tzinfo>Z|[+-]\d{2}(?::?\d{2})?)?$`. -/
def timeExpr : RE :=
  seqAll [
    .group "hour" (repRange digit 1 2), .chr ':',
    .group "minute" (repRange digit 1 2),
    .opt (seqAll [.chr ':', .group "second" (repRange digit 1 2),
      .opt (seqAll [.chr '.', .group "microsecond" (repRange digit 1 6),
                    repUpTo digit 6])]),
    .opt (.group "tzinfo" (.alt (.chr 'Z')
      (seqAll [.cls (fun c => c == '+' || c == '-'), repExact digit 2,
               .opt (seqAll [.opt (.chr ':'), repExact digit 2])]))),
    .eos]

/-- `date_re = DATE_EXPR + "$"`. -/
def dateRe : RE := .seq dateExpr .eos

/-- `time_re = TIME_EXPR`. -/
def timeRe : RE := timeExpr

/-- `datetime_re = DATE_EXPR + "[T ]" + TIME_EXPR`. -/
def datetimeRe : RE :=
  seqAll [dateExpr, .cls (fun c => c == 'T' || c == ' '), timeExpr]

/-- `standard_duration_re`:
`^(?:(?P<days>-?\d+) (days?, )?)?`
`((?:(?P<hours>-?\d+):)(?=\d+:\d+))?`
`(?:(?P<minutes>-?\d+):)?`
`(?P<seconds>-?\d+)`
`(?:\.(?P<microseconds>\d{1,6})\d{0,6})?$`. -/
def standardDurationRe : RE :=
  seqAll [
    .opt (seqAll [.group "days" signedInt, .chr ' ',
                  .opt (seqAll [RE.lit "day", .opt (.chr 's'), RE.lit ", "])]),
    .opt (.seq (.seq (.group "hours" signedInt) (.chr ':'))
      (.lookahead (seqAll [RE.plus digit, .chr ':', RE.plus digit]))),
    .opt (.seq (.group "minutes" signedInt) (.chr ':')),
    .group "seconds" signedInt,
    .opt (seqAll [.chr '.', .group "microseconds" (repRange digit 1 6),
                  repUpTo digit 6]),
    .eos]

/-- `iso8601_duration_re`:
`^(?P<sign>[-+]?)P(?:(?P<days>\d+(.\d+)?)D)?`
`(?:T(?:(?P<hours>\d+(.\d+)?)H)?(?:(?P<minutes>\d+(.\d+)?)M)?`
`(?:(?P<seconds>\d+(.\d+)?)S)?)?$`. -/
def iso8601DurationRe : RE :=
  seqAll [
    .group "sign" (.opt (.cls fun c => c == '-' || c == '+')),
    .chr 'P',
    .opt (.seq (.group "days" numFrac) (.chr 'D')),
    .opt (seqAll [.chr 'T',
      .opt (.seq (.group "hours" numFrac) (.chr 'H')),
      .opt (.seq (.group "minutes" numFrac) (.chr 'M')),
      .opt (.seq (.group "seconds" numFrac) (.chr 'S'))]),
    .eos]

/-! ### Numeric string conversions -/

/-- Python `int(s)` for the `-?\d+` / `\d+` strings captured by the patterns
above. -/
def pyInt (s : String) : Int :=
  match s.data with
  | '-' :: rest => -(digitsToNat rest : Int)
  | cs => (digitsToNat cs : Int)

/-- Python `float(s)`, for plain decimal notation
(`[+-]? digits [ '.' digits? ]?`, at least one digit): `none` models a
`ValueError`.  The strings fed to it by `parse_duration` are exactly of this
shape except when the iso-8601 "any character" slot captured something other
than a dot, in which case Python's `float` raises. -/
def pyFloat? (s : String) : Option ℚ :=
  let (sign, cs) :=
    match s.data with
    | '-' :: rest => ((-1 : ℚ), rest)
    | '+' :: rest => ((1 : ℚ), rest)
    | cs => ((1 : ℚ), cs)
  let intPart := cs.takeWhile isdigitA
  let rest := cs.dropWhile isdigitA
  match rest with
  | [] =>
      if intPart.isEmpty then Option.none
      else some (sign * digitsToNat intPart)
  | '.' :: frac =>
      if frac.all isdigitA ∧ ¬(intPart.isEmpty ∧ frac.isEmpty) then
        some (sign * ((digitsToNat intPart : ℚ)
          + (digitsToNat frac : ℚ) / ((10 : ℚ) ^ frac.length)))
      else Option.none
  | _ => Option.none

/-- `s.ljust(6, "0")`. -/
def ljust6 (s : String) : String :=
  s ++ String.mk (List.replicate (6 - s.length) '0')

/-! ### Calendar arithmetic

CPython's `datetime` validates fields on construction and represents dates
by their proleptic-Gregorian ordinal; we convert valid dates to days since
the Unix epoch. -/

/-- Leap year test. -/
def isLeapYear (y : Nat) : Bool :=
  y % 4 == 0 && (y % 100 != 0 || y % 400 == 0)

/-- Days in a month of a year. -/
def daysInMonth (y m : Nat) : Nat :=
  if m == 2 then (if isLeapYear y then 29 else 28)
  else if m == 4 || m == 6 || m == 9 || m == 11 then 30
  else 31

/-- Days before the first day of year `y` (counting from 0001‑01‑01). -/
def daysBeforeYear (y : Nat) : Nat :=
  365 * (y - 1) + (y - 1) / 4 + (y - 1) / 400 - (y - 1) / 100

/-- Days before the first day of month `m` in year `y`. -/
def daysBeforeMonth (y m : Nat) : Nat :=
  let cum := [0, 31, 59, 90, 120, 151, 181, 212, 243, 273, 304, 334]
  (cum.getD (m - 1) 0) + (if m > 2 ∧ isLeapYear y then 1 else 0)

/-- Days between 0001‑01‑01 and 1970‑01‑01. -/
def epochOrdinalDays : Nat := 719162

/-- A valid civil date, as days since the Unix epoch. -/
def civilToEpochDays (y m d : Nat) : Int :=
  (daysBeforeYear y + daysBeforeMonth y m + (d - 1) : Int) - epochOrdinalDays

/-- `datetime.date(y, m, d)` field validation. -/
def validDate (y m d : Nat) : Bool :=
  1 ≤ y && y ≤ 9999 && 1 ≤ m && m ≤ 12 && 1 ≤ d && d ≤ daysInMonth y m

/-- `datetime.max` (9999‑12‑31 23:59:59.999999) as epoch seconds. -/
def datetimeMaxSeconds : ℚ := 253402300799 + 999999 / 1000000

/-- `datetime.min` (0001‑01‑01 00:00) as epoch seconds. -/
def datetimeMinSeconds : ℚ := -62135596800

/-! ### `aquiche/utils/_time_parse.py` proper -/

/-- `MS_WATERSHED = int(2e10)`. -/
def msWatershed : ℚ := 20000000000

/-- `MAX_NUMBER = int(3e20)`. -/
def maxNumber : ℚ := 300000000000000000000

/-- The `while abs(seconds) > MS_WATERSHED: seconds /= 1000` loop of
`from_unix_seconds`.  Each division shrinks the magnitude a thousandfold, so
the fuel below (64) is never exhausted for inputs bounded by `MAX_NUMBER`. -/
def scaleWatershed : Nat → ℚ → ℚ
  | 0, s => s
  | fuel + 1, s => if |s| > msWatershed then scaleWatershed fuel (s / 1000) else s

/-- `from_unix_seconds`. -/
def fromUnixSeconds (seconds : ℚ) : ℚ :=
  if seconds > maxNumber then datetimeMaxSeconds
  else if seconds < -maxNumber then datetimeMinSeconds
  else scaleWatershed 64 seconds

/-- The result of the `parse_date` / `parse_time` / `parse_datetime` /
`parse_duration` functions: a `datetime` (epoch seconds, naive readings
interpreted as UTC — see the module header), a `date`, a `time` (seconds
within the day plus an optional utcoffset in seconds) or a `timedelta`. -/
inductive TimeLike where
  | dt (t : ℚ)
  | dateOnly (days : ℤ)
  | timeOnly (secs : ℚ) (tz : Option ℚ)
  | delta (d : ℚ)

/-- `_parse_timezone`: `None` stays naive; `"Z"` is UTC; otherwise the offset
in minutes is `±(60·int(v[1:3]) + int(v[-2:]))` (the minute part only when
the string is longer than 3 characters).  `timezone(timedelta(minutes=o))`
raises unless `|o| < 24·60`.  We return the utcoffset in seconds. -/
def parseTimezone (v : Option String) (err : PyErr) :
    Except PyErr (Option ℚ) :=
  match v with
  | Option.none => .ok Option.none
  | some s =>
      if s == "Z" then .ok (some 0)
      else
        let cs := s.data
        let offsetMins : Int :=
          if s.length > 3 then pyInt (String.mk (cs.drop (cs.length - 2))) else 0
        let offset : Int := 60 * pyInt (String.mk (cs.drop 1 |>.take 2)) + offsetMins
        let offset : Int := if cs.headD ' ' == '-' then -offset else offset
        if offset.natAbs < 24 * 60 then .ok (some ((offset : ℚ) * 60))
        else .error err

/-- `int(v)` for a captured group, with `0` for digits-only strings being the
only case exercised (`datetime` parameters are digit runs). -/
def groupInt (caps : RE.Capts) (name : String) : Option Int :=
  (RE.Capts.group caps name).map pyInt

/-- Build `datetime(**datetime_params)` out of the `datetime_re` captures:
field validation mirrors the `datetime` constructor, and the result is the
epoch-seconds reading (aware values are shifted by their utcoffset). -/
def datetimeFromCaps (caps : RE.Capts) (tz : Option ℚ) (err : PyErr) :
    Except PyErr ℚ :=
  let y := (groupInt caps "year").getD 0
  let mo := (groupInt caps "month").getD 0
  let d := (groupInt caps "day").getD 0
  let h := (groupInt caps "hour").getD 0
  let mi := (groupInt caps "minute").getD 0
  let s := (groupInt caps "second").getD 0
  let us := ((RE.Capts.group caps "microsecond").map
    (fun v => pyInt (ljust6 v))).getD 0
  if validDate y.toNat mo.toNat d.toNat ∧ h ≤ 23 ∧ mi ≤ 59 ∧ s ≤ 59 then
    let clock : ℚ := (civilToEpochDays y.toNat mo.toNat d.toNat : ℚ) * 86400
      + (h : ℚ) * 3600 + (mi : ℚ) * 60 + (s : ℚ) + (us : ℚ) / 1000000
    .ok (clock - (tz.getD 0))
  else
    .error err

/-- `parse_datetime` on a string (the numeric branch goes through
`get_numeric`/`from_unix_seconds`; `float()` failure selects the regex
branch). -/
def parseDatetimeStr (s : String) : Except PyErr TimeLike :=
  match pyFloat? s with
  | some q => .ok (.dt (fromUnixSeconds q))
  | Option.none =>
      match RE.reMatch datetimeRe s with
      | Option.none => .error (.dateTimeError s)
      | some caps => do
          let tz ← parseTimezone (RE.Capts.group caps "tzinfo") (.dateTimeError s)
          let t ← datetimeFromCaps caps tz (.dateTimeError s)
          return .dt t

/-- `parse_date` on a string: the numeric branch takes
`from_unix_seconds(number).date()` (the UTC calendar date, i.e. the floor in
days); otherwise `date_re` plus `date()` validation. -/
def parseDateStr (s : String) : Except PyErr TimeLike :=
  match pyFloat? s with
  | some q => .ok (.dateOnly ⌊fromUnixSeconds q / 86400⌋)
  | Option.none =>
      match RE.reMatch dateRe s with
      | Option.none => .error (.dateError s)
      | some caps =>
          let y := (groupInt caps "year").getD 0
          let mo := (groupInt caps "month").getD 0
          let d := (groupInt caps "day").getD 0
          if validDate y.toNat mo.toNat d.toNat then
            .ok (.dateOnly (civilToEpochDays y.toNat mo.toNat d.toNat))
          else
            .error (.dateError s)

/-- `parse_time` on a string: a number `n` is rejected at `86400` and above,
raises (`OverflowError`, modelled as a `timeError`-less failure) below `0`,
and otherwise reads `(datetime.min + timedelta(seconds=n)).time()`;
otherwise `time_re` plus `time()` validation. -/
def parseTimeStr (s : String) : Except PyErr TimeLike :=
  match pyFloat? s with
  | some q =>
      if q ≥ 86400 then .error (.timeError s)
      else if q < 0 then .error (.overflowError)
      else .ok (.timeOnly q Option.none)
  | Option.none =>
      match RE.reMatch timeRe s with
      | Option.none => .error (.timeError s)
      | some caps => do
          let tz ← parseTimezone (RE.Capts.group caps "tzinfo") (.timeError s)
          let h := (groupInt caps "hour").getD 0
          let mi := (groupInt caps "minute").getD 0
          let sec := (groupInt caps "second").getD 0
          let us := ((RE.Capts.group caps "microsecond").map
            (fun v => pyInt (ljust6 v))).getD 0
          if h ≤ 23 ∧ mi ≤ 59 ∧ sec ≤ 59 then
            return .timeOnly ((h : ℚ) * 3600 + (mi : ℚ) * 60 + (sec : ℚ)
              + (us : ℚ) / 1000000) tz
          else
            .error (.timeError s)

/-- `__parse_duration_custom`: run the unit-sum parser; any failure becomes a
`DurationError` naming the value. -/
def parseDurationCustom (s : String) : Except PyErr ℚ :=
  match SumExpressionParser.parse customDurationParserConfig s with
  | .ok n => .ok (n : ℚ)
  | .error _ => .error (.durationError s)

/-- Assemble `sign * timedelta(**timedelta_params)` from duration captures:
microseconds are right-padded to six digits, made negative when the seconds
string is negative, and every captured string goes through `float()`. -/
def durationFromCaps (caps : RE.Capts) : Except PyErr ℚ := do
  let sign : ℚ :=
    if RE.Capts.group caps "sign" == some "-" then -1 else 1
  let micro0 := (RE.Capts.group caps "microseconds").map ljust6
  let secondsStr := RE.Capts.group caps "seconds"
  let micro : Option String :=
    match secondsStr, micro0 with
    | some ss, some ms =>
        if pyStartsWith ss "-" then some ("-" ++ ms) else some ms
    | _, _ => micro0
  let toF : Option String → Except PyErr ℚ := fun v =>
    match v with
    | Option.none => .ok 0
    | some v =>
        match pyFloat? v with
        | some q => .ok q
        | Option.none => .error .valueError
  let days ← toF (RE.Capts.group caps "days")
  let hours ← toF (RE.Capts.group caps "hours")
  let minutes ← toF (RE.Capts.group caps "minutes")
  let seconds ← toF secondsStr
  let microseconds ← toF micro
  return sign * (days * 86400 + hours * 3600 + minutes * 60 + seconds
    + microseconds / 1000000)

/-- `parse_duration` on a string: `standard_duration_re`, then
`iso8601_duration_re`, then the custom unit-sum grammar. -/
def parseDurationStr (s : String) : Except PyErr ℚ :=
  match RE.reMatch standardDurationRe s with
  | some caps => durationFromCaps caps
  | Option.none =>
      match RE.reMatch iso8601DurationRe s with
      | some caps => durationFromCaps caps
      | Option.none => parseDurationCustom s

/-- `parse_duration` on an int: `f"{value:f}"` renders `value` with six
`0` decimals, which `standard_duration_re` matches as seconds (plus zero
microseconds), so the result is `timedelta(seconds=value)`. -/
def parseDurationInt (n : Int) : ℚ := (n : ℚ)

end TimeParse

/-! ## Attribute extraction (`aquiche/utils/_extraction_utils.py`) -/

/-- `attribute_path.strip().lstrip("$.")`: `lstrip` removes any leading run
of the characters `$` and `.`. -/
def lstripDollarDot (s : String) : String :=
  String.mk ((pyStripWS s).data.dropWhile fun c => c == '$' || c == '.')

/-- The intermediate value of the reduce chains in `__deep_get`/`__rgetattr`:
either a real value or the `MissingValue` sentinel (a missing dict key, a
non-dict value reached mid-path, or an `AttributeError`). -/
inductive ExtractVal where
  | val (v : PyVal)
  | missing

/-- One step of `__deep_get`'s reduce:
`d.get(key, MissingValue(...)) if isinstance(d, dict) else MissingValue(...)`. -/
def deepGetStep (d : ExtractVal) (key : String) : ExtractVal :=
  match d with
  | .val (.dict kvs) =>
      match kvs.find? (fun kv => kv.1 == key) with
      | some (_, v) => .val v
      | Option.none => .missing
  | _ => .missing

/-- One step of `__rgetattr`'s `functools.reduce(getattr, ...)`: attribute
access on a modelled object; anything else raises `AttributeError`, which
`__rgetattr` converts to the default (the `MissingValue` sentinel). -/
def rgetattrStep (d : ExtractVal) (key : String) : ExtractVal :=
  match d with
  | .val (.obj attrs) =>
      match attrs.find? (fun kv => kv.1 == key) with
      | some (_, v) => .val v
      | Option.none => .missing
  | _ => .missing

/-- `extract_from_obj(obj, attribute_path, check_attribute_exists=True)`:
strip the `$.` prefix, follow the dotted path with dict-key access for dicts
and attribute access otherwise, and raise an `ExtractionError` when the path
does not resolve. -/
def extract_from_obj (obj : PyVal) (attributePath : String) :
    Except PyErr PyVal :=
  let path := lstripDollarDot attributePath
  let keys := pySplitOnDot path
  let value :=
    match obj with
    | .dict _ => keys.foldl deepGetStep (.val obj)
    | _ => keys.foldl rgetattrStep (.val obj)
  match value with
  | .missing => .error (.extractionError path)
  | .val v => .ok v

/-! ## Expiration policies (`aquiche/_expiration.py`)

The closed set of `CacheExpiration` / `AsyncCacheExpiration` subclasses.
`dateE` holds the (UTC-normalised) expiry timestamp; `syncAttr`/`asyncAttr`
hold the (stripped) attribute path; the function policies hold an opaque
callable id resolved through an oracle at evaluation time. -/
inductive CacheExpiration where
  | nonExpiring
  | boolE (isExpired : Bool)
  | dateE (expiryDate : ℚ)
  | refreshing (refreshInterval : ℚ)
  | syncAttr (attributePath : String)
  | syncFunc (id : Nat)
  | asyncAttr (attributePath : String)
  | asyncFunc (id : Nat)
deriving DecidableEq

/-- Whether the policy is an `AsyncCacheExpiration` subclass. -/
def CacheExpiration.isAsync : CacheExpiration → Bool
  | .asyncAttr _ | .asyncFunc _ => true
  | _ => false

/-- The wall clock: `datetime.now(timezone.utc)` as epoch seconds and
`date.today()` as epoch days (used by `datetime.combine(date.today(), t)`). -/
structure Clock where
  now : ℚ
  todayDays : ℤ

/-- The mutable `CachedValue` state of a record that the expiration engine
reads (`aquiche/_core.py`): `last_fetched`, the cached `value`, and the
`is_error` flag. -/
structure CachedValueM where
  lastFetched : Option ℚ
  value : PyVal
  isError : Bool

/-- `__get_cache_expiration_from_num`: `value = int(value)` (truncation
toward zero) and then either an epoch timestamp (`> 1e8`, through
`parse_datetime`/`from_unix_seconds`) or a refresh interval in seconds
(through `parse_duration`). -/
def getCacheExpirationFromNum (q : ℚ) : CacheExpiration :=
  let n : Int := if q < 0 then -((-q).floor) else q.floor
  if n > 100000000 then
    .dateE (TimeParse.fromUnixSeconds (n : ℚ))
  else
    .refreshing (TimeParse.parseDurationInt n)

/-- `__get_cache_expiration_from_time`: `datetime` ⇒ `DateCacheExpiration`;
`date` ⇒ midnight UTC of that day; `time` ⇒ that time on `date.today()`
(keeping the time's utcoffset, naive times normalised to UTC); `timedelta`
⇒ `RefreshingCacheExpiration`. -/
def getCacheExpirationFromTime (clock : Clock) :
    TimeParse.TimeLike → CacheExpiration
  | .dt t => .dateE t
  | .dateOnly days => .dateE ((days : ℚ) * 86400)
  | .timeOnly secs tz =>
      .dateE ((clock.todayDays : ℚ) * 86400 + secs - tz.getD 0)
  | .delta d => .refreshing d

/-- `__get_cache_expiration_from_str` (for an already-stripped value): a
`$.`-prefixed attribute path, or the first of
`parse_duration, parse_datetime, parse_date, parse_time` that succeeds,
converted through `__get_cache_expiration_from_time`; if every parse fails,
`InvalidTimeFormatError`. -/
def getCacheExpirationFromStr (clock : Clock) (value : String)
    (preferAsync : Bool) : Except PyErr CacheExpiration :=
  if pyStartsWith value "$." then
    .ok (if preferAsync then .asyncAttr (pyStripWS value)
         else .syncAttr (pyStripWS value))
  else
    let parsed : Option TimeParse.TimeLike :=
      match TimeParse.parseDurationStr value with
      | .ok d => some (.delta d)
      | .error _ =>
          match TimeParse.parseDatetimeStr value with
          | .ok t => some t
          | .error _ =>
              match TimeParse.parseDateStr value with
              | .ok t => some t
              | .error _ =>
                  match TimeParse.parseTimeStr value with
                  | .ok t => some t
                  | .error _ => Option.none
    match parsed with
    | Option.none => .error (.invalidTimeFormatError value)
    | some t => .ok (getCacheExpirationFromTime clock t)

/-- `get_cache_expiration(value, prefer_async, default_expiration)`:
type-driven dispatch over the expiration value.  `PyVal.none` is Python's
`None`. -/
def get_cache_expiration (clock : Clock) (value : PyVal)
    (preferAsync : Bool := true)
    (defaultExpiration : Option CacheExpiration := Option.none) :
    Except PyErr CacheExpiration :=
  match value with
  | .none => .ok (defaultExpiration.getD .nonExpiring)
  | .bool b => .ok (.boolE b)
  | .float q => .ok (getCacheExpirationFromNum q)
  | .int n => .ok (getCacheExpirationFromNum (n : ℚ))
  | .str s => getCacheExpirationFromStr clock (pyStripWS s) preferAsync
  | .datetime t => .ok (getCacheExpirationFromTime clock (.dt t))
  | .timedelta d => .ok (getCacheExpirationFromTime clock (.delta d))
  | .callable id isCoroutine =>
      if isCoroutine then .ok (.asyncFunc id)
      else if preferAsync then .ok (.asyncFunc id) else .ok (.syncFunc id)
  | _ => .error .invalidExpirationType

/-- `_get_cache_func_value`: assert `last_fetched is not None` and package
the `CachedItem` handed to predicate policies (the oracle receives the same
fields through `CachedValueM`). -/
def getCacheFuncValue (cv : CachedValueM) : Except PyErr CachedValueM :=
  match cv.lastFetched with
  | Option.none => .error .assertionError
  | some _ => .ok cv

/-- `is_value_expired` for every policy class, with an oracle giving the
result of predicate callables and fuel bounding the recursive re-resolution
(`AttributePath`/predicate policies re-enter `get_cache_expiration`; Python
would overflow the stack on a cyclic chain, modelled by `recursionError`).
* `NonExpiring`: expired iff never fetched.
* `Bool`: constant.
* `Date`: expired iff `last_fetched >= expiry_date` (never fetched ⇒ true).
* `Refreshing`: expired iff `now - last_fetched >= interval`.
* `SyncAttribute`: extract, resolve with `prefer_async=False`, reject async
  resolutions (`InvalidSyncExpirationType`), evaluate the resolution.
* `SyncFunc`: call the predicate, then as for `SyncAttribute`.
* `AsyncAttribute`/`AsyncFunc`: same, with `prefer_async=True` and no
  sync-ness check. -/
def isValueExpired (clock : Clock)
    (oracle : Nat → CachedValueM → Except PyErr PyVal) :
    Nat → CacheExpiration → CachedValueM → Except PyErr Bool
  | _, .nonExpiring, cv => .ok cv.lastFetched.isNone
  | _, .boolE b, _ => .ok b
  | _, .dateE d, cv =>
      .ok (match cv.lastFetched with
           | Option.none => true
           | some lf => decide (lf ≥ d))
  | _, .refreshing i, cv =>
      .ok (match cv.lastFetched with
           | Option.none => true
           | some lf => decide (clock.now - lf ≥ i))
  | 0, .syncAttr _, _ => .error .recursionError
  | fuel + 1, .syncAttr p, cv => do
      let expiryValue ← extract_from_obj cv.value p
      let ce ← get_cache_expiration clock expiryValue false Option.none
      if ce.isAsync then .error .invalidSyncExpirationType
      else isValueExpired clock oracle fuel ce cv
  | 0, .syncFunc _, _ => .error .recursionError
  | fuel + 1, .syncFunc id, cv => do
      let item ← getCacheFuncValue cv
      let expiryValue ← oracle id item
      let ce ← get_cache_expiration clock expiryValue false Option.none
      if ce.isAsync then .error .invalidSyncExpirationType
      else isValueExpired clock oracle fuel ce cv
  | 0, .asyncAttr _, _ => .error .recursionError
  | fuel + 1, .asyncAttr p, cv => do
      let expiryValue ← extract_from_obj cv.value p
      let ce ← get_cache_expiration clock expiryValue true Option.none
      isValueExpired clock oracle fuel ce cv
  | 0, .asyncFunc _, _ => .error .recursionError
  | fuel + 1, .asyncFunc id, cv => do
      let item ← getCacheFuncValue cv
      let expiryValue ← oracle id item
      let ce ← get_cache_expiration clock expiryValue true Option.none
      isValueExpired clock oracle fuel ce cv

/-! ## The retry/backoff executor (`__execute_task`)

`SyncCachedRecord.__execute_task` (`aquiche/_cache.py` and, with identical
text, `aquiche/_sync_cache.py`) and `AsyncCachedRecord.__execute_task`
(`aquiche/_cache.py`) all run the same loop; only the sleep primitive
differs. -/

/-- `CacheTaskExecutionInfo` (`aquiche/_core.py`): the per-record execution
configuration.  `retries` is an `int` (the decorator clamps negatives to 0
before construction, but the record accepts any value); the exit-stack
configuration is restricted to its boolean form, the only one the claims
exercise. -/
structure CacheTaskExecutionInfo where
  fail : Bool := true
  retries : Int := 0
  backoffInSeconds : ℚ := 0
  wrapAsyncExitStack : Bool := false

/-- The outcome of `__execute_task`, instrumented with the number of
invocations of the wrapped function and the backoff sleeps performed. -/
structure ExecResult where
  value : PyVal
  isSuccessful : Bool
  calls : Nat
  sleeps : List ℚ

/-- The `while True` loop of `__execute_task`.  `f i` is the outcome of the
`i`-th invocation of the wrapped function overall (`startCall` invocations
happened before this fetch); `jitter i` is the `random.uniform(0, 1)` draw
attached to attempt `i`.  On an exception: give up once
`retry_iter >= retries`, otherwise sleep
`backoff_in_seconds * 2 ** retry_iter + uniform(0, 1)` when the backoff is
nonzero, and retry. -/
def executeTaskGo (f : Nat → Except PyVal PyVal) (jitter : Nat → ℚ)
    (info : CacheTaskExecutionInfo) (startCall : Nat) (retryIter : Nat)
    (sleepsAcc : List ℚ) : ExecResult :=
  match f (startCall + retryIter) with
  | .ok v =>
      { value := v, isSuccessful := true, calls := retryIter + 1
        sleeps := sleepsAcc }
  | .error e =>
      if h : (retryIter : Int) ≥ info.retries then
        { value := e, isSuccessful := false, calls := retryIter + 1
          sleeps := sleepsAcc }
      else
        let sleepsAcc :=
          if info.backoffInSeconds ≠ 0 then
            sleepsAcc
              ++ [info.backoffInSeconds * 2 ^ retryIter + jitter (startCall + retryIter)]
          else sleepsAcc
        executeTaskGo f jitter info startCall (retryIter + 1) sleepsAcc
termination_by (info.retries + 1 - retryIter).toNat
decreasing_by
  simp only [not_le] at h
  omega

/-- `__execute_task`. -/
def executeTask (f : Nat → Except PyVal PyVal) (jitter : Nat → ℚ)
    (info : CacheTaskExecutionInfo) (startCall : Nat) : ExecResult :=
  executeTaskGo f jitter info startCall 0 []

/-! ## Environment

The ambient effects every record operation may consult: the wrapped
function's outcomes (indexed by the global invocation count), the jitter
draws, the results of user predicate policies, the recursion budget for
policy re-resolution, and the calendar day.  The wall-clock instant is
passed per operation. -/
structure PyEnv where
  f : Nat → Except PyVal PyVal
  jitter : Nat → ℚ
  funcOracle : Nat → CachedValueM → Except PyErr PyVal
  fuel : Nat
  todayDays : ℤ

/-- The clock an operation performed at instant `now` observes. -/
def PyEnv.clock (env : PyEnv) (now : ℚ) : Clock :=
  { now := now, todayDays := env.todayDays }

/-! ## `SyncCachedRecord` of `aquiche/_cache.py`

The record class that `_alru_cache.py` imports for synchronous functions.
It has no lock, no inflight event and no exit-stack handling; `destroy()`
resets the `CachedValue` unconditionally.  (`CachedValue.destroy_value` in
`aquiche/_core.py` resets `last_fetched`, `value` and `exit_stack` but not
`is_error`.)

The initial `CachedValue()` has no `is_error` attribute at all (the
dataclass in `aquiche/_core.py` does not declare it); it is first created by
the assignment in `__store_cache`, and every read is guarded by
`last_fetched is not None`, so modelling the initial value as `false` is
unobservable. -/
structure SyncCachedRecord where
  cachedValue : CachedValueM
  execInfo : CacheTaskExecutionInfo
  expiration : CacheExpiration
  negativeExpiration : CacheExpiration

namespace SyncCachedRecord

/-- `SyncCachedRecord(...)`: `__validate_expirations` rejects async
expirations with `InvalidCacheConfig`; the cached value starts empty. -/
def init (execInfo : CacheTaskExecutionInfo)
    (expiration negativeExpiration : CacheExpiration) :
    Except PyErr SyncCachedRecord :=
  if expiration.isAsync || negativeExpiration.isAsync then
    .error .invalidCacheConfig
  else
    .ok { cachedValue := ⟨Option.none, .none, false⟩
          execInfo := execInfo
          expiration := expiration
          negativeExpiration := negativeExpiration }

/-- `is_expired()`: never-fetched is not expired; otherwise the negative or
the positive policy is chosen by `is_error`. -/
def is_expired (env : PyEnv) (now : ℚ) (rec : SyncCachedRecord) :
    Except PyErr Bool :=
  match rec.cachedValue.lastFetched with
  | Option.none => .ok false
  | some _ =>
      if rec.cachedValue.isError then
        isValueExpired (env.clock now) env.funcOracle env.fuel
          rec.negativeExpiration rec.cachedValue
      else
        isValueExpired (env.clock now) env.funcOracle env.fuel
          rec.expiration rec.cachedValue

/-- `__store_cache()`: run the executor, store
`(now, value, is_error := not is_successful)`, and re-raise the captured
error when it failed and `fail` is set.  Returns the unit result (or the
raised error), the mutated record, and the new global invocation count. -/
def store_cache (env : PyEnv) (now : ℚ) (rec : SyncCachedRecord)
    (calls : Nat) : Except PyErr Unit × SyncCachedRecord × Nat :=
  let res := executeTask env.f env.jitter rec.execInfo calls
  let rec' := { rec with
    cachedValue :=
      { lastFetched := some now, value := res.value
        isError := !res.isSuccessful } }
  if !res.isSuccessful && rec.execInfo.fail then
    (.error (.userRaised res.value), rec', calls + res.calls)
  else
    (.ok (), rec', calls + res.calls)

/-- `get_cached()`: an unexpired cached value (error or not) is returned
as-is; otherwise fetch via `__store_cache` and return the freshly stored
value.  An exception from `is_expired` or the re-raise from `__store_cache`
propagates. -/
def get_cached (env : PyEnv) (now : ℚ) (rec : SyncCachedRecord)
    (calls : Nat) : Except PyErr PyVal × SyncCachedRecord × Nat :=
  let fetch : Unit → Except PyErr PyVal × SyncCachedRecord × Nat := fun _ =>
    match store_cache env now rec calls with
    | (.error e, rec', calls') => (.error e, rec', calls')
    | (.ok (), rec', calls') => (.ok rec'.cachedValue.value, rec', calls')
  match rec.cachedValue.lastFetched with
  | Option.none => fetch ()
  | some _ =>
      match is_expired env now rec with
      | .error e => (.error e, rec, calls)
      | .ok false => (.ok rec.cachedValue.value, rec, calls)
      | .ok true => fetch ()

/-- `destroy()`: `self.__cached_value.destroy_value()` unconditionally;
`is_error` is left as-is (see above). -/
def destroy (rec : SyncCachedRecord) : SyncCachedRecord :=
  { rec with cachedValue :=
      { lastFetched := Option.none, value := .none
        isError := rec.cachedValue.isError } }

end SyncCachedRecord

/-! ## `SyncCachedRecord` of `aquiche/_sync_cache.py` (thread-based variant)

The historical blocking implementation: an `RLock` plus a `threading.Event`
inflight signal, mirroring `AsyncCachedRecord`.  `SyncCachedValue`
(a subclass of `CachedValue`) overrides `destroy_value` to also reset
`is_error` (while not touching `exit_stack`, which this variant never
sets).

The operations below give the record's *serial* semantics — one caller
running each operation to completion, which is the behaviour the two
variants are compared on; under serial execution the lock is uncontended and
the inflight event is set and consumed within one `get_cached`. -/
namespace SyncCacheModule

structure SyncCachedRecord where
  cachedValue : CachedValueM
  execInfo : CacheTaskExecutionInfo
  expiration : CacheExpiration
  negativeExpiration : CacheExpiration

/-- Constructor, identical validation to the other variant. -/
def SyncCachedRecord.init (execInfo : CacheTaskExecutionInfo)
    (expiration negativeExpiration : CacheExpiration) :
    Except PyErr SyncCachedRecord :=
  if expiration.isAsync || negativeExpiration.isAsync then
    .error .invalidCacheConfig
  else
    .ok { cachedValue := ⟨Option.none, .none, false⟩
          execInfo := execInfo
          expiration := expiration
          negativeExpiration := negativeExpiration }

/-- `is_expired()` — same text as the other variant. -/
def SyncCachedRecord.is_expired (env : PyEnv) (now : ℚ)
    (rec : SyncCachedRecord) : Except PyErr Bool :=
  match rec.cachedValue.lastFetched with
  | Option.none => .ok false
  | some _ =>
      if rec.cachedValue.isError then
        isValueExpired (env.clock now) env.funcOracle env.fuel
          rec.negativeExpiration rec.cachedValue
      else
        isValueExpired (env.clock now) env.funcOracle env.fuel
          rec.expiration rec.cachedValue

/-- `destroy()`: no-op when never fetched; otherwise
`SyncCachedValue.destroy_value` resets `last_fetched`, `value` **and**
`is_error`. -/
def SyncCachedRecord.destroy (rec : SyncCachedRecord) : SyncCachedRecord :=
  match rec.cachedValue.lastFetched with
  | Option.none => rec
  | some _ =>
      { rec with cachedValue :=
          { lastFetched := Option.none, value := .none, isError := false } }

/-- `get_cached()` run serially: return an unexpired cached value, else
create the inflight event, run `__store_cache` (which calls `destroy()`
before overwriting the fields, sets the event, and re-raises on
`fail`), wait on the already-set event and return the stored value. -/
def SyncCachedRecord.get_cached (env : PyEnv) (now : ℚ)
    (rec : SyncCachedRecord) (calls : Nat) :
    Except PyErr PyVal × SyncCachedRecord × Nat :=
  let fetch : Unit → Except PyErr PyVal × SyncCachedRecord × Nat := fun _ =>
    let res := executeTask env.f env.jitter rec.execInfo calls
    -- with the lock: destroy(); then store the new outcome and signal
    let rec' := { rec.destroy with
      cachedValue :=
        { lastFetched := some now, value := res.value
          isError := !res.isSuccessful } }
    if !res.isSuccessful && rec.execInfo.fail then
      (.error (.userRaised res.value), rec', calls + res.calls)
    else
      (.ok rec'.cachedValue.value, rec', calls + res.calls)
  match rec.cachedValue.lastFetched with
  | Option.none => fetch ()
  | some _ =>
      match rec.is_expired env now with
      | .error e => (.error e, rec, calls)
      | .ok false => (.ok rec.cachedValue.value, rec, calls)
      | .ok true => fetch ()

end SyncCacheModule

/-! ## `AsyncCachedRecord` of `aquiche/_cache.py` — serial semantics

The cooperative-task implementation, run serially (a single caller per
operation), restricted to `wrap_async_exit_stack = False` (then
`__safe_wrap_exit_stack` returns the value unchanged and never stores an
exit stack).  `destroy()` is guarded by `last_fetched` and uses
`CachedValue.destroy_value`, which does **not** reset `is_error`.
Unlike the `SyncCachedRecord`s there is no expiration validation at
construction; the serial comparison is made for sync-evaluable policies. -/
namespace AsyncRecord

structure AsyncCachedRecord where
  cachedValue : CachedValueM
  execInfo : CacheTaskExecutionInfo
  expiration : CacheExpiration
  negativeExpiration : CacheExpiration

/-- `AsyncCachedRecord(...)`: no validation; empty cached value. -/
def AsyncCachedRecord.init (execInfo : CacheTaskExecutionInfo)
    (expiration negativeExpiration : CacheExpiration) : AsyncCachedRecord :=
  { cachedValue := ⟨Option.none, .none, false⟩
    execInfo := execInfo
    expiration := expiration
    negativeExpiration := negativeExpiration }

/-- `is_expired()`: never-fetched is not expired; the policy (awaited when
async) is chosen by `is_error`. -/
def AsyncCachedRecord.is_expired (env : PyEnv) (now : ℚ)
    (rec : AsyncCachedRecord) : Except PyErr Bool :=
  match rec.cachedValue.lastFetched with
  | Option.none => .ok false
  | some _ =>
      if rec.cachedValue.isError then
        isValueExpired (env.clock now) env.funcOracle env.fuel
          rec.negativeExpiration rec.cachedValue
      else
        isValueExpired (env.clock now) env.funcOracle env.fuel
          rec.expiration rec.cachedValue

/-- `destroy()`: no-op when never fetched; otherwise close the exit stack
(none here) and `CachedValue.destroy_value` — `is_error` keeps its value. -/
def AsyncCachedRecord.destroy (rec : AsyncCachedRecord) : AsyncCachedRecord :=
  match rec.cachedValue.lastFetched with
  | Option.none => rec
  | some _ =>
      { rec with cachedValue :=
          { lastFetched := Option.none, value := .none
            isError := rec.cachedValue.isError } }

/-- `get_cached()` run serially: return an unexpired cached value; else
create the inflight event and run `__store_cache` (inflight check passes,
executor runs, then under the lock: `destroy()`, store the outcome —
successful values pass through `__safe_wrap_exit_stack` unchanged with
`wrap_async_exit_stack=False` — signal, and re-raise on `fail`), then await
the already-set event and return the stored value. -/
def AsyncCachedRecord.get_cached (env : PyEnv) (now : ℚ)
    (rec : AsyncCachedRecord) (calls : Nat) :
    Except PyErr PyVal × AsyncCachedRecord × Nat :=
  let fetch : Unit → Except PyErr PyVal × AsyncCachedRecord × Nat := fun _ =>
    let res := executeTask env.f env.jitter rec.execInfo calls
    let rec' := { rec.destroy with
      cachedValue :=
        { lastFetched := some now, value := res.value
          isError := !res.isSuccessful } }
    if !res.isSuccessful && rec.execInfo.fail then
      (.error (.userRaised res.value), rec', calls + res.calls)
    else
      (.ok rec'.cachedValue.value, rec', calls + res.calls)
  match rec.cachedValue.lastFetched with
  | Option.none => fetch ()
  | some _ =>
      match rec.is_expired env now with
      | .error e => (.error e, rec, calls)
      | .ok false => (.ok rec.cachedValue.value, rec, calls)
      | .ok true => fetch ()

end AsyncRecord

/-! ## The synchronous LRU wrapper (`aquiche/_alru_cache.py`,
`_sync_lru_cache_wrapper`)

The factory closes over the configuration, an `LRUCacheRepository`, the
`hits`/`misses` counters and `last_expiration_check`
(`datetime.fromtimestamp(0, utc)`), parses
`expired_items_auto_removal_period` once, and picks one of three wrapper
bodies: caching disabled, uncapped (`maxsize is None`), or size-limited.
All calls here are for one fixed key (`make_key` of a fixed argument list);
the state also carries the global invocation count of the wrapped
function. -/

/-- The recognised keyword surface of `alru_cache`, with its default values
(`aquiche/_alru_cache.py`).  `maxsize` is kept non-negative: a negative
`maxsize` (accepted by the type validation) is outside the modelled
configuration space, which covers every configuration the claims quantify
over. -/
structure SyncWrapperConfig where
  enabled : Bool := true
  maxsize : Option Nat := Option.none
  expiration : PyVal := .none
  expiredItemsAutoRemovalPeriod : PyVal := .str "10 minutes"
  wrapAsyncExitStack : Bool := false
  negativeCache : Bool := false
  negativeExpiration : PyVal := .str "10 seconds"
  retryCount : Int := 0
  backoffInSeconds : ℚ := 0

/-- `__parse_duration_to_timedelta`. -/
def parseDurationToTimedelta (v : PyVal) : Except PyErr (Option ℚ) :=
  match v with
  | .none => .ok Option.none
  | .timedelta d => .ok (some d)
  | .str s => (TimeParse.parseDurationStr s).map some
  | .int n => .ok (some (TimeParse.parseDurationInt n))
  | _ => .error .typeError

/-- The immutable closure bindings the factory computes:
`expiry_period = __parse_duration_to_timedelta(expired_items_auto_removal_period)`.
The sync factory first rejects a truthy `wrap_async_exit_stack`. -/
structure SyncWrapperEnv where
  cfg : SyncWrapperConfig
  expiryPeriod : Option ℚ

/-- The body of `_sync_lru_cache_wrapper` up to choosing a wrapper. -/
def syncLruCacheWrapperFactory (cfg : SyncWrapperConfig) :
    Except PyErr SyncWrapperEnv := do
  if cfg.wrapAsyncExitStack then
    .error .invalidCacheConfig
  else do
    let period ← parseDurationToTimedelta cfg.expiredItemsAutoRemovalPeriod
    return { cfg := cfg, expiryPeriod := period }

/-- `__is_cache_enabled`. -/
def SyncWrapperEnv.isCacheEnabled (env : SyncWrapperEnv) : Bool :=
  if env.cfg.maxsize == some 0 then false else env.cfg.enabled

/-- The mutable closure state of one wrapper instance. -/
structure SyncWrapperState where
  cache : LRUCacheRepository SyncCachedRecord
  hits : Nat
  misses : Nat
  lastExpirationCheck : ℚ
  calls : Nat

/-- The state right after the factory ran. -/
def SyncWrapperState.init (cfg : SyncWrapperConfig) : SyncWrapperState :=
  { cache := .init cfg.maxsize, hits := 0, misses := 0
    lastExpirationCheck := 0, calls := 0 }

/-- The record constructed on a miss: the execution info packs
`fail = not negative_cache` and the retry/backoff settings; the two
expiration values are resolved with `prefer_async=False` and a
`NonExpiringCacheExpiration` default, then validated by the record's
constructor. -/
def mkSyncRecord (wenv : SyncWrapperEnv) (env : PyEnv) (now : ℚ) :
    Except PyErr SyncCachedRecord := do
  let expiration ← get_cache_expiration (env.clock now) wenv.cfg.expiration
    false (some .nonExpiring)
  let negativeExpiration ← get_cache_expiration (env.clock now)
    wenv.cfg.negativeExpiration false (some .nonExpiring)
  SyncCachedRecord.init
    { fail := !wenv.cfg.negativeCache
      retries := wenv.cfg.retryCount
      backoffInSeconds := wenv.cfg.backoffInSeconds
      wrapAsyncExitStack := false }
    expiration negativeExpiration

/-- The `lambda _key, record: not record.is_expired()` passed to
`cache.filter` by `__remove_expired`: a two-parameter callable (`filter`
calls it with one argument, which raises `TypeError` before the body runs). -/
def removeExpiredCondition (env : PyEnv) (now : ℚ) :
    PyCallable SyncCachedRecord Bool :=
  { arity := 2
    fn := fun args =>
      match args with
      | [_key, record] => do
          let e ← record.is_expired env now
          return !e
      | _ => .error .typeError }

/-- The `lambda _key, value: value.destroy()` passed to `cache.every` by
`cache_clear`; also a two-parameter callable. -/
def clearDestroyFunction : PyCallable SyncCachedRecord Unit :=
  { arity := 2
    fn := fun args =>
      match args with
      | [_key, _value] => .ok ()
      | _ => .error .typeError }

/-- `__remove_expired`: stamp `last_expiration_check = now` first, then
filter the repository on the (two-parameter) expiry condition and destroy
every removed record.  Exceptions propagate with the timestamp already
updated. -/
def syncRemoveExpired (env : PyEnv) (now : ℚ) (st : SyncWrapperState) :
    Except PyErr Unit × SyncWrapperState :=
  let st := { st with lastExpirationCheck := now }
  match st.cache.filter (removeExpiredCondition env now) with
  | .error e => (.error e, st)
  | .ok (_removed, cache') =>
      -- `removed_item.destroy()` on each removed record mutates records that
      -- are no longer referenced by the repository.
      (.ok (), { st with cache := cache' })

/-- `__schedule_remove_expired`: nothing without a period; otherwise sweep
when `now - last_expiration_check >= expiry_period`. -/
def syncScheduleRemoveExpired (wenv : SyncWrapperEnv) (env : PyEnv) (now : ℚ)
    (st : SyncWrapperState) : Except PyErr Unit × SyncWrapperState :=
  match wenv.expiryPeriod with
  | Option.none => (.ok (), st)
  | some period =>
      if now - st.lastExpirationCheck ≥ period then
        syncRemoveExpired env now st
      else
        (.ok (), st)

/-- The caching-disabled wrapper body (`not __is_cache_enabled()`): count a
miss and run the wrapped function. -/
def syncWrapperCallDisabled (env : PyEnv) (st : SyncWrapperState) :
    Except PyErr PyVal × SyncWrapperState :=
  let st := { st with misses := st.misses + 1 }
  match env.f st.calls with
  | .ok v => (.ok v, { st with calls := st.calls + 1 })
  | .error e => (.error (.userRaised e), { st with calls := st.calls + 1 })

/-- The size-limited wrapper body, for the fixed key `key`:
under the lock, schedule the sweep and probe the repository (with recency
bump); on a hit return `record.get_cached()` (writing the mutated record
back through the alias); on a miss construct a fresh record, fetch outside
the lock, and only on success insert the record under the lock. -/
def syncWrapperCallSized (wenv : SyncWrapperEnv) (env : PyEnv) (now : ℚ)
    (key : Nat) (st : SyncWrapperState) :
    Except PyErr PyVal × SyncWrapperState :=
  match syncScheduleRemoveExpired wenv env now st with
  | (.error e, st) => (.error e, st)
  | (.ok (), st) =>
      match st.cache.get key with
      | (some rec, cache') =>
          let st := { st with cache := cache', hits := st.hits + 1 }
          let (res, rec', calls') :=
            SyncCachedRecord.get_cached env now rec st.calls
          (res, { st with cache := st.cache.setValue key rec', calls := calls' })
      | (Option.none, _) =>
          let st := { st with misses := st.misses + 1 }
          match mkSyncRecord wenv env now with
          | .error e => (.error e, st)
          | .ok rec =>
              match SyncCachedRecord.get_cached env now rec st.calls with
              | (.error e, _, calls') => (.error e, { st with calls := calls' })
              | (.ok v, rec', calls') =>
                  let st := { st with calls := calls' }
                  match st.cache.add key rec' with
                  | .error e => (.error e, st)
                  | .ok cache' => (.ok v, { st with cache := cache' })

/-- The uncapped wrapper body (`maxsize is None`): as above but with
`get_no_adjust`/`add_no_adjust`. -/
def syncWrapperCallUncapped (wenv : SyncWrapperEnv) (env : PyEnv) (now : ℚ)
    (key : Nat) (st : SyncWrapperState) :
    Except PyErr PyVal × SyncWrapperState :=
  match syncScheduleRemoveExpired wenv env now st with
  | (.error e, st) => (.error e, st)
  | (.ok (), st) =>
      match st.cache.get_no_adjust key with
      | some rec =>
          let st := { st with hits := st.hits + 1 }
          let (res, rec', calls') :=
            SyncCachedRecord.get_cached env now rec st.calls
          (res, { st with cache := st.cache.setValue key rec', calls := calls' })
      | Option.none =>
          let st := { st with misses := st.misses + 1 }
          match mkSyncRecord wenv env now with
          | .error e => (.error e, st)
          | .ok rec =>
              match SyncCachedRecord.get_cached env now rec st.calls with
              | (.error e, _, calls') => (.error e, { st with calls := calls' })
              | (.ok v, rec', calls') =>
                  let cache' := st.cache.add_no_adjust key rec'
                  (.ok v, { st with calls := calls', cache := cache' })

/-- One call of the wrapper the factory returned. -/
def syncWrapperCall (wenv : SyncWrapperEnv) (env : PyEnv) (now : ℚ)
    (key : Nat) (st : SyncWrapperState) :
    Except PyErr PyVal × SyncWrapperState :=
  if !wenv.isCacheEnabled then
    syncWrapperCallDisabled env st
  else
    match wenv.cfg.maxsize with
    | Option.none => syncWrapperCallUncapped wenv env now key st
    | some _ => syncWrapperCallSized wenv env now key st

/-- `cache_info()`. -/
structure CacheInfo where
  hits : Nat
  misses : Nat
  maxsize : Option Nat
  currentSize : Nat
  lastExpirationCheck : ℚ

def syncCacheInfo (wenv : SyncWrapperEnv) (st : SyncWrapperState) :
    CacheInfo :=
  { hits := st.hits, misses := st.misses, maxsize := wenv.cfg.maxsize
    currentSize := st.cache.get_size
    lastExpirationCheck := st.lastExpirationCheck }

/-- `cache_clear()`: destroy every record through the (two-parameter)
callable, clear the repository, reset the counters.  An exception from
`every` aborts before anything is cleared. -/
def syncCacheClear (st : SyncWrapperState) :
    Except PyErr Unit × SyncWrapperState :=
  match st.cache.every clearDestroyFunction with
  | .error e => (.error e, st)
  | .ok () =>
      (.ok (), { st with cache := st.cache.clear, hits := 0, misses := 0 })

/-- `remove_expired()` (the exposed manual sweep). -/
def syncRemoveExpiredExposed (env : PyEnv) (now : ℚ)
    (st : SyncWrapperState) : Except PyErr Unit × SyncWrapperState :=
  syncRemoveExpired env now st

/-- Iterate one wrapper call per instant in `times`, collecting the
outcomes. -/
def syncWrapperRun (wenv : SyncWrapperEnv) (env : PyEnv) (key : Nat) :
    SyncWrapperState → List ℚ →
      List (Except PyErr PyVal) × SyncWrapperState
  | st, [] => ([], st)
  | st, t :: ts =>
      let p := syncWrapperCall wenv env t key st
      let q := syncWrapperRun wenv env key p.2 ts
      (p.1 :: q.1, q.2)

/-! ## `AsyncCachedRecord.get_cached` under cooperative interleaving

A small-step semantics of N asyncio tasks calling `get_cached()` on one
record (`aquiche/_cache.py`).  In asyncio, code between suspension points
runs atomically, and none of the record's critical sections suspends
internally for the configurations modelled here (the lock is free whenever a
task runs, `Lock.acquire` on a free lock and `Event.wait` on a set event
return without yielding, and `await`ing a coroutine that never awaits a
future runs it inline).  The genuine suspension points are:

* `await self.__get_function()` — the wrapped function runs (and may itself
  suspend arbitrarily),
* `await asleep(...)` — a backoff sleep,
* `await event.wait()` on a not-yet-set inflight event.

Each task is therefore in one of: about to enter (`start`), waiting on an
inflight event (`waitEvent`), inside invocation `i` of the wrapped function
(`running i callNo`), inside the backoff sleep after failed attempt `i`
(`sleeping i`), or finished (`done`).  A scheduler step picks a task; a task
whose suspension cannot resume (event not set) or that already finished
leaves the state unchanged.

A policy evaluation that raises would propagate out of `get_cached` with the
record's lock still held (there is no `try/finally` around the check),
blocking every later caller: `lockPoisoned` models that.  The claims below
instantiate non-raising policies, so the flag never trips. -/
namespace AsyncFlight

/-- The fixed data of one run: the wrapped function's outcome per global
invocation number, the execution info, the two policies, the (fixed) wall
clock and the expiration-evaluation environment. -/
structure MachineCfg where
  outcome : Nat → Except PyVal PyVal
  retries : Int
  backoffNonzero : Bool
  fail : Bool
  expiration : CacheExpiration
  negativeExpiration : CacheExpiration
  now : ℚ
  env : PyEnv

/-- How a task's `get_cached()` call ended. -/
inductive TaskResult where
  | normal (v : PyVal)
  | raised (v : PyVal)
  | errored (e : PyErr)

inductive ATask where
  | start
  | waitEvent (e : Nat)
  | running (i : Nat) (callNo : Nat)
  | sleeping (i : Nat)
  | done (r : TaskResult)

structure AConfig where
  cached : CachedValueM
  inflight : Option Nat
  events : List Bool
  callCount : Nat
  tasks : List ATask
  lockPoisoned : Bool

/-- `is_expired()` as evaluated inside `get_cached` (the record's
`last_fetched` guard, then the policy picked by `is_error`). -/
def isExpiredEval (cfg : MachineCfg) (cv : CachedValueM) :
    Except PyErr Bool :=
  match cv.lastFetched with
  | Option.none => .ok false
  | some _ =>
      if cv.isError then
        isValueExpired (cfg.env.clock cfg.now) cfg.env.funcOracle cfg.env.fuel
          cfg.negativeExpiration cv
      else
        isValueExpired (cfg.env.clock cfg.now) cfg.env.funcOracle cfg.env.fuel
          cfg.expiration cv

/-- The atomic completion of `__store_cache` after the executor finished
with `(v, success)`: under the lock, `destroy()` the previous value, store
`(now, v, not success)`, clear `inflight` and set its event; then (without
suspending) re-raise when `fail` and failed, or pass the already-set
`event.wait()` and return the just-stored value. -/
def completeStore (cfg : MachineCfg) (c : AConfig) (tid : Nat) (v : PyVal)
    (success : Bool) : AConfig :=
  match c.inflight with
  | Option.none =>
      -- unreachable: the producer created the inflight event and nothing
      -- clears it before this step (`DeadlockError` would surface)
      { c with lockPoisoned := true
               tasks := c.tasks.set tid (.done (.errored .deadlockError)) }
  | some eid =>
      let cached' : CachedValueM :=
        { lastFetched := some cfg.now, value := v, isError := !success }
      let tasks' :=
        if !success && cfg.fail then
          c.tasks.set tid (.done (.raised v))
        else
          c.tasks.set tid (.done (.normal v))
      { c with cached := cached', inflight := Option.none
               events := c.events.set eid true, tasks := tasks' }

/-- One scheduler step: run task `tid` until its next suspension point (or
completion), as described in the section header. -/
def step (cfg : MachineCfg) (c : AConfig) (tid : Nat) : AConfig :=
  match c.tasks.get? tid with
  | Option.none => c
  | some t =>
      match t with
      | .done _ => c
      | .start =>
          if c.lockPoisoned then c
          else
            let enterFetch : Unit → AConfig := fun _ =>
              match c.inflight with
              | some e => { c with tasks := c.tasks.set tid (.waitEvent e) }
              | Option.none =>
                  let eid := c.events.length
                  { c with inflight := some eid
                           events := c.events ++ [false]
                           callCount := c.callCount + 1
                           tasks := c.tasks.set tid (.running 0 c.callCount) }
            match c.cached.lastFetched with
            | Option.none => enterFetch ()
            | some _ =>
                match isExpiredEval cfg c.cached with
                | .error e =>
                    { c with lockPoisoned := true
                             tasks := c.tasks.set tid (.done (.errored e)) }
                | .ok false =>
                    { c with tasks :=
                        c.tasks.set tid (.done (.normal c.cached.value)) }
                | .ok true => enterFetch ()
      | .waitEvent e =>
          if c.events.getD e false then
            { c with tasks := c.tasks.set tid (.done (.normal c.cached.value)) }
          else c
      | .running i callNo =>
          match cfg.outcome callNo with
          | .ok v => completeStore cfg c tid v true
          | .error e =>
              if (i : Int) ≥ cfg.retries then completeStore cfg c tid e false
              else if cfg.backoffNonzero then
                { c with tasks := c.tasks.set tid (.sleeping i) }
              else
                { c with callCount := c.callCount + 1
                         tasks := c.tasks.set tid (.running (i + 1) c.callCount) }
      | .sleeping i =>
          { c with callCount := c.callCount + 1
                   tasks := c.tasks.set tid (.running (i + 1) c.callCount) }

/-- Run a schedule. -/
def run (cfg : MachineCfg) (c : AConfig) (sched : List Nat) : AConfig :=
  sched.foldl (step cfg) c

/-- N tasks about to call `get_cached()` on a record whose cached value is
`cv0`: `⟨none, none, false⟩` for a fresh record, or a previously stored
(now expired) value for a refresh generation. -/
def initFrom (cv0 : CachedValueM) (n : Nat) : AConfig :=
  { cached := cv0
    inflight := Option.none
    events := []
    callCount := 0
    tasks := List.replicate n .start
    lockPoisoned := false }

/-- N tasks about to call `get_cached()` on a fresh record. -/
def init (n : Nat) : AConfig :=
  initFrom ⟨Option.none, .none, false⟩ n

end AsyncFlight

/-- The outcome a caller of the wrapper sees for the `i`-th invocation of
the wrapped function. -/
def wrapOutcome (r : Except PyVal PyVal) : Except PyErr PyVal :=
  match r with
  | .ok v => .ok v
  | .error e => .error (.userRaised e)

/-- The outcomes of `n` straight invocations starting at global call
`start`. -/
def expectedResults (f : Nat → Except PyVal PyVal) (start n : Nat) :
    List (Except PyErr PyVal) :=
  (List.range n).map fun i => wrapOutcome (f (start + i))

/-- The raised outcomes of `n` straight failing calls starting at global
invocation `start`. -/
def expectedRaised (errs : Nat → PyVal) (start n : Nat) :
    List (Except PyErr PyVal) :=
  (List.range n).map fun i => .error (.userRaised (errs (start + i)))

/-- The environment of the C7 witness: a function that always raises. -/
def c7Env : PyEnv where
  f := fun _ => .error (.exception "boom")
  jitter := fun _ => 0
  funcOracle := fun _ _ => .ok .none
  fuel := 0
  todayDays := 0

/-- The C7 witness configuration with negative caching off: `maxsize=1`,
default expirations (`None` / `"10 seconds"`), sweep period `"10 minutes"`
(= 600 s). -/
def c7CfgOff : SyncWrapperConfig :=
  SyncWrapperConfig.mk true (some 1) .none (.str "10 minutes") false false
    (.str "10 seconds") 0 0

/-- The same configuration with negative caching on. -/
def c7CfgOn : SyncWrapperConfig :=
  SyncWrapperConfig.mk true (some 1) .none (.str "10 minutes") false true
    (.str "10 seconds") 0 0

/-- The `alru_cache` keyword defaults (`aquiche/_alru_cache.py`): every
field of `SyncWrapperConfig` at its default value — in particular
`expiration = None`, `negative_expiration = "10 seconds"`. -/
def alruCacheDefaults : SyncWrapperConfig := {}

/-- The environment of the C10 witness: a function that always raises. -/
def c10Env : PyEnv where
  f := fun _ => .error (.exception "bang")
  jitter := fun _ => 0
  funcOracle := fun _ _ => .ok .none
  fuel := 0
  todayDays := 0

/-- A record holding a successfully cached value under the default
(resolved) policies: positive `NonExpiring`, negative `Refreshing 10 s`. -/
def c10SuccessRec : SyncCachedRecord :=
  { cachedValue := ⟨some 100, .int 7, false⟩
    execInfo := { fail := false, retries := 0, backoffInSeconds := 0
                  wrapAsyncExitStack := false }
    expiration := .nonExpiring
    negativeExpiration := .refreshing 10 }

/-- The same record holding a cached error instead. -/
def c10ErrorRec : SyncCachedRecord :=
  { cachedValue := ⟨some 100, .exception "bang", true⟩
    execInfo := { fail := false, retries := 0, backoffInSeconds := 0
                  wrapAsyncExitStack := false }
    expiration := .nonExpiring
    negativeExpiration := .refreshing 10 }

namespace AsyncFlight

/-- Phase A of one fetch generation: nobody has entered the fetch — the
record still holds the generation's starting cached value `cv0` (empty or
expired), no inflight event, no invocation yet, every task still at its
`get_cached()` entry. -/
def InvA (n : Nat) (cv0 : CachedValueM) (c : AConfig) : Prop :=
  c.cached = cv0 ∧ c.inflight = Option.none ∧
  c.events = [] ∧ c.callCount = 0 ∧ c.lockPoisoned = false ∧
  c.tasks = List.replicate n .start

/-- Phase B: one producer created the inflight event and runs invocation
number `0`; the starting cached value `cv0` is still in place (the store
happens atomically at completion); every other task has either not started
or waits on event `0`; the function has been invoked exactly once. -/
def InvB (n : Nat) (cv0 : CachedValueM) (c : AConfig) : Prop :=
  c.cached = cv0 ∧ c.inflight = some 0 ∧
  c.events = [false] ∧ c.callCount = 1 ∧ c.lockPoisoned = false ∧
  c.tasks.length = n ∧
  ∃ p, p < n ∧ c.tasks.get? p = some (.running 0 0) ∧
    ∀ q t, q ≠ p → c.tasks.get? q = some t →
      t = .start ∨ t = .waitEvent 0

/-- Phase C: the single invocation finished and stored `(now, w, isErr)`;
the inflight event is set and cleared from the record; the producer
completed with `prodRes`; every other task has not started, waits on the
(set) event `0`, or has returned the stored value normally. -/
def InvC (n : Nat) (w : PyVal) (isErr : Bool) (prodRes : TaskResult)
    (now : ℚ) (c : AConfig) : Prop :=
  c.cached = ⟨some now, w, isErr⟩ ∧ c.inflight = Option.none ∧
  c.events = [true] ∧ c.callCount = 1 ∧ c.lockPoisoned = false ∧
  c.tasks.length = n ∧
  ∃ p, p < n ∧ c.tasks.get? p = some (.done prodRes) ∧
    ∀ q t, q ≠ p → c.tasks.get? q = some t →
      t = .start ∨ t = .waitEvent 0 ∨ t = .done (.normal w)

/-- The single-flight invariant: every reachable configuration of one
generation is in phase A, B or C. -/
def Inv (n : Nat) (cv0 : CachedValueM) (w : PyVal) (isErr : Bool)
    (prodRes : TaskResult) (now : ℚ) (c : AConfig) : Prop :=
  InvA n cv0 c ∨ InvB n cv0 c ∨ InvC n w isErr prodRes now c

end AsyncFlight

/-- The machine of the C1 witness: a function returning `42`, non-expiring
policies. -/
def c1Cfg : AsyncFlight.MachineCfg :=
  { outcome := fun _ => .ok (.int 42)
    retries := 0
    backoffNonzero := false
    fail := false
    expiration := .nonExpiring
    negativeExpiration := .nonExpiring
    now := 0
    env := { f := fun _ => .ok (.int 42), jitter := fun _ => 0
             funcOracle := fun _ _ => .ok .none, fuel := 0, todayDays := 0 } }

/-- The machine of the C1 expired-start witness: the record holds a stale
cached error whose negative policy is `BoolCacheExpiration(True)` (always
expired), refreshed by a function returning `42` under a non-expiring
positive policy. -/
def c1CfgExp : AsyncFlight.MachineCfg :=
  { outcome := fun _ => .ok (.int 42)
    retries := 0
    backoffNonzero := false
    fail := false
    expiration := .nonExpiring
    negativeExpiration := .boolE true
    now := 0
    env := { f := fun _ => .ok (.int 42), jitter := fun _ => 0
             funcOracle := fun _ _ => .ok .none, fuel := 0, todayDays := 0 } }

/-- The machine of the C3 example: an always-raising function,
`fail = True` (`negative_cache=False`), no retries, 10-second negative
expiration. -/
def c3Cfg : AsyncFlight.MachineCfg :=
  { outcome := fun _ => .error (.exception "boom")
    retries := 0
    backoffNonzero := false
    fail := true
    expiration := .nonExpiring
    negativeExpiration := .refreshing 10
    now := 0
    env := { f := fun _ => .error (.exception "boom"), jitter := fun _ => 0
             funcOracle := fun _ _ => .ok .none, fuel := 0, todayDays := 0 } }

/-!
## Theorems
-/

@[simp] theorem PyCallable.call_eq {α β : Type} (f : PyCallable α β)
    (args : List α) :
    f.call args =
      if args.length = f.arity then f.fn args else .error .typeError :=
  rfl

namespace LRUCacheRepository

variable {α : Type}

theorem has_eq_false_of_not_mem {r : LRUCacheRepository α} {key : Nat}
    (h : key ∉ r.keys) : r.has key = false := by
  unfold has
  rw [List.any_eq_false]
  intro kv hkv
  simp only [beq_iff_eq]
  intro hk
  exact h (by simpa [keys, hk] using List.mem_map_of_mem Prod.fst hkv)

theorem find?_eq_of_nodup {l : List (Nat × α)} {k : Nat} {v : α}
    (hnd : (l.map Prod.fst).Nodup) (hmem : (k, v) ∈ l) :
    l.find? (fun kv => kv.1 == k) = some (k, v) := by
  induction l with
  | nil => cases hmem
  | cons hd tl ih =>
      rw [List.map_cons, List.nodup_cons] at hnd
      rcases List.mem_cons.mp hmem with h | h
      · subst h
        exact List.find?_cons_of_pos _ (by simp)
      · have hk : k ∈ tl.map Prod.fst := List.mem_map_of_mem Prod.fst h
        have hhd : hd.1 ≠ k := fun he => hnd.1 (he ▸ hk)
        rw [List.find?_cons_of_neg _ (by simpa using hhd)]
        exact ih hnd.2 h

theorem find?_eq_none_of_not_mem {l : List (Nat × α)} {k : Nat}
    (h : k ∉ l.map Prod.fst) :
    l.find? (fun kv => kv.1 == k) = Option.none := by
  rw [List.find?_eq_none]
  intro kv hkv
  simp only [beq_iff_eq]
  intro hk
  exact h (hk ▸ List.mem_map_of_mem Prod.fst hkv)

theorem addAll_nil (r : LRUCacheRepository α) : addAll r [] = .ok r := rfl

theorem addAll_cons (r : LRUCacheRepository α) (kv : Nat × α)
    (kvs : List (Nat × α)) :
    addAll r (kv :: kvs)
      = (r.add kv.1 kv.2) >>= fun acc => addAll acc kvs := rfl

/-- One `add` step on a windowed state: with `done` pairs already inserted
into a fresh repository of capacity `m ≥ 1` (so the ring holds the most
recent `m` of them) and a key not inserted before, `add` produces the window
over `done ++ [kv]`. -/
theorem add_window_step (m : Nat) (hm : 1 ≤ m) (done : List (Nat × α))
    (kv : Nat × α) (hkey : kv.1 ∉ (done.map Prod.fst)) :
    (⟨done.drop (done.length - m), m,
      decide (done.length ≥ m)⟩ : LRUCacheRepository α).add kv.1 kv.2
    = .ok ⟨(done ++ [kv]).drop ((done.length + 1) - m), m,
           decide (done.length + 1 ≥ m)⟩ := by
  have hkey' : kv.1 ∉ (done.drop (done.length - m)).map Prod.fst := fun hmem =>
    hkey (List.map_subset Prod.fst (List.drop_subset _ _) hmem)
  have hnotmem : (⟨done.drop (done.length - m), m,
      decide (done.length ≥ m)⟩ : LRUCacheRepository α).has kv.1 = false :=
    has_eq_false_of_not_mem hkey'
  unfold add
  rw [hnotmem]
  by_cases hfull : done.length ≥ m
  · have hlen : (done.drop (done.length - m)).length = m := by
      rw [List.length_drop]; omega
    simp only [Bool.false_eq_true, if_false, decide_eq_true_eq, hfull, if_true,
      ge_iff_le, decide_eq_true (show m ≤ done.length + 1 by omega)]
    obtain ⟨hd, tl, hE⟩ : ∃ hd tl,
        done.drop (done.length - m) = hd :: tl := by
      cases hD : done.drop (done.length - m) with
      | nil => rw [hD] at hlen; simp at hlen; omega
      | cons hd tl => exact ⟨hd, tl, rfl⟩
    rw [hE]
    have htl : tl = done.drop (done.length - m + 1) := by
      have := congrArg List.tail hE
      simpa [List.tail_drop] using this.symm
    have hdrop : (done ++ [kv]).drop ((done.length + 1) - m) = tl ++ [kv] := by
      rw [htl, List.drop_append_of_le_length (by omega)]
      congr 2
      omega
    rw [hdrop]
    simp
  · have hdrop0 : done.length - m = 0 := by omega
    have hdrop1 : done.length + 1 - m = 0 := by omega
    simp only [Bool.false_eq_true, if_false, decide_eq_true_eq, hfull,
      if_true, ge_iff_le, hdrop0, hdrop1, List.drop_zero]
    have hm0 : (m != 0) = true := by
      simp only [bne_iff_ne, ne_eq]
      omega
    simp only [hm0, Bool.true_and, List.length_drop, Nat.sub_zero]

/-- Invariant of a run of `add`s into a fresh bounded repository: after the
pairs `done` have been added, the ring holds exactly the most recent
`maxsize` of them and the `__full` flag says whether `maxsize` many have been
seen.  The remaining pairs `rest` then drive the state to the corresponding
window over `done ++ rest`. -/
theorem addAll_window (m : Nat) (hm : 1 ≤ m) :
    ∀ (rest done : List (Nat × α)),
      (((done ++ rest).map Prod.fst).Nodup) →
      addAll ⟨done.drop (done.length - m), m, decide (done.length ≥ m)⟩ rest
        = .ok ⟨(done ++ rest).drop ((done ++ rest).length - m), m,
               decide ((done ++ rest).length ≥ m)⟩ := by
  intro rest
  induction rest with
  | nil => intro done _; rw [addAll_nil]; simp
  | cons kv rest ih =>
      intro done hnd
      have hkey : kv.1 ∉ done.map Prod.fst := by
        intro hmem
        rw [List.map_append] at hnd
        exact (List.nodup_append.mp hnd).2.2 hmem (by simp)
      rw [addAll_cons, add_window_step m hm done kv hkey]
      show addAll ⟨(done ++ [kv]).drop ((done.length + 1) - m), m,
             decide (done.length + 1 ≥ m)⟩ rest = _
      have hlen1 : done.length + 1 = (done ++ [kv]).length := by simp
      rw [hlen1]
      have hnd' : (((done ++ [kv]) ++ rest).map Prod.fst).Nodup := by
        simpa [List.append_assoc] using hnd
      rw [ih (done ++ [kv]) hnd']
      simp [List.append_assoc]

/-- `get` on a present key, with distinct stored keys: the stored value is
returned and the node is relinked at the most-recently-used end. -/
theorem get_present {r : LRUCacheRepository α} {k : Nat} {v : α}
    (hnd : (r.entries.map Prod.fst).Nodup) (hmem : (k, v) ∈ r.entries) :
    r.get k
      = (some v,
         { r with entries := (r.entries.eraseP fun kv => kv.1 == k) ++ [(k, v)] }) := by
  unfold get
  rw [find?_eq_of_nodup hnd hmem]

/-- `get` on an absent key returns `None` and leaves the state unchanged. -/
theorem get_absent {r : LRUCacheRepository α} {k : Nat}
    (h : k ∉ r.entries.map Prod.fst) :
    r.get k = (Option.none, r) := by
  unfold get
  rw [find?_eq_none_of_not_mem h]

/-- Relinking a present key permutes no keys: the key multiset (hence the set
of stored keys) is unchanged by `get`. -/
theorem get_preserves_keys {r : LRUCacheRepository α} {k : Nat} {v : α}
    (hnd : (r.entries.map Prod.fst).Nodup) (hmem : (k, v) ∈ r.entries) :
    ((r.get k).2.entries.map Prod.fst).Perm (r.entries.map Prod.fst) := by
  rw [get_present hnd hmem]
  obtain ⟨a, l₁, l₂, _, ha, hsplit, herase⟩ :=
    List.exists_of_eraseP (p := fun kv => kv.1 == k) hmem (by simp)
  have ha1 : a.1 = k := by simpa using ha
  show (((r.entries.eraseP fun kv => kv.1 == k) ++ [(k, v)]).map Prod.fst).Perm _
  rw [herase]
  conv_rhs => rw [hsplit]
  simp only [List.map_append, List.map_cons, ha1]
  have h2 : (l₁.map Prod.fst ++ (l₂.map Prod.fst ++ [k])).Perm
      (l₁.map Prod.fst ++ (k :: l₂.map Prod.fst)) :=
    List.Perm.append_left _ (List.perm_append_singleton _ _)
  simpa [List.append_assoc] using h2

end LRUCacheRepository

/-!
## Claim C2: LRU eviction window and `get` relinking
-/

/-- **C2**: for an LRU repository created with `maxsize = m ≥ 1`, inserting
distinct keys in order leaves exactly the last `m` of them retrievable via
`get`: the ring holds the window of the most recent `m` pairs, `get` of each
window key gives its value, `get` of each evicted key gives `None`.
Moreover `get` of any present key returns the stored value and relinks that
node at the most-recently-used end (the tail of the ring) without changing
the set of stored keys. -/
theorem C2_lru_eviction_and_get_relink {α : Type} (m : Nat) (hm : 1 ≤ m)
    (kvs : List (Nat × α)) (hnd : (kvs.map Prod.fst).Nodup) :
    (∃ r : LRUCacheRepository α,
      LRUCacheRepository.addAll (.init (some m)) kvs = .ok r ∧
      r.entries = kvs.drop (kvs.length - m) ∧
      (∀ k v, (k, v) ∈ kvs.drop (kvs.length - m) → (r.get k).1 = some v) ∧
      (∀ k, k ∈ (kvs.map Prod.fst).take (kvs.length - m) →
        (r.get k).1 = Option.none)) ∧
    (∀ (r : LRUCacheRepository α) (k : Nat) (v : α),
      (r.entries.map Prod.fst).Nodup → (k, v) ∈ r.entries →
      (r.get k).1 = some v ∧
      (r.get k).2.entries
        = (r.entries.eraseP fun kv => kv.1 == k) ++ [(k, v)] ∧
      ((r.get k).2.entries.map Prod.fst).Perm (r.entries.map Prod.fst)) := by
  constructor
  · have hinit : (LRUCacheRepository.init (some m) : LRUCacheRepository α)
        = ⟨([] : List (Nat × α)).drop (([] : List (Nat × α)).length - m), m,
           decide (([] : List (Nat × α)).length ≥ m)⟩ := by
      simp [LRUCacheRepository.init]
      omega
    have hrun := LRUCacheRepository.addAll_window m hm kvs [] (by simpa using hnd)
    rw [← hinit] at hrun
    refine ⟨_, by simpa using hrun, by simp, ?_, ?_⟩
    · intro k v hmem
      have hndw : ((kvs.drop (kvs.length - m)).map Prod.fst).Nodup := by
        rw [List.map_drop]
        exact hnd.sublist (List.drop_sublist _ _)
      have := LRUCacheRepository.get_present (r :=
        ⟨kvs.drop (kvs.length - m), m, decide (kvs.length ≥ m)⟩) hndw hmem
      simp only [this]
    · intro k hk
      have hkw : k ∉ (kvs.drop (kvs.length - m)).map Prod.fst := by
        rw [List.map_drop]
        intro hmem
        have hnd' := hnd
        rw [← List.take_append_drop (kvs.length - m) (kvs.map Prod.fst)]
          at hnd'
        exact (List.nodup_append.mp hnd').2.2 hk hmem
      have := LRUCacheRepository.get_absent (r :=
        ⟨kvs.drop (kvs.length - m), m, decide (kvs.length ≥ m)⟩) hkw
      simp only [this]
  · intro r k v hndr hmem
    refine ⟨?_, ?_, LRUCacheRepository.get_preserves_keys hndr hmem⟩
    · rw [LRUCacheRepository.get_present hndr hmem]
    · rw [LRUCacheRepository.get_present hndr hmem]

/-- Witness for C2: `maxsize = 2`, keys `a,b,c,d,e` (as `0..4`) inserted in
order leave exactly `d,e` retrievable; `a,b,c` are absent. -/
theorem C2_lru_eviction_and_get_relink_witness :
    (1 ≤ 2 ∧
      (([(0, 10), (1, 20), (2, 30), (3, 40), (4, 50)] :
        List (Nat × Nat)).map Prod.fst).Nodup) ∧
    (∃ r : LRUCacheRepository Nat,
      LRUCacheRepository.addAll (.init (some 2))
        [(0, 10), (1, 20), (2, 30), (3, 40), (4, 50)] = .ok r ∧
      (r.get 3).1 = some 40 ∧ (r.get 4).1 = some 50 ∧
      (r.get 0).1 = Option.none ∧ (r.get 1).1 = Option.none ∧
      (r.get 2).1 = Option.none) := by
  refine ⟨⟨by decide, by decide⟩, ?_⟩
  obtain ⟨⟨r, hrun, _, hpresent, habsent⟩, _⟩ :=
    C2_lru_eviction_and_get_relink (α := Nat) 2 (by decide)
      [(0, 10), (1, 20), (2, 30), (3, 40), (4, 50)] (by decide)
  refine ⟨r, hrun, ?_, ?_, ?_, ?_, ?_⟩
  · exact hpresent 3 40 (by decide)
  · exact hpresent 4 50 (by decide)
  · exact habsent 0 (by decide)
  · exact habsent 1 (by decide)
  · exact habsent 2 (by decide)

/-!
## Claim C5: the sweep and clear raise on a non-empty cache (code bug)
-/

/-- `filter` with a two-parameter callback raises `TypeError` on the first
stored entry: the repository calls `condition(value)` with one argument. -/
theorem filter_arity_two_raises {α : Type} (r : LRUCacheRepository α)
    (cond : PyCallable α Bool) (har : cond.arity = 2)
    (hne : r.entries ≠ []) : r.filter cond = .error .typeError := by
  match hE : r.entries with
  | [] => exact absurd hE hne
  | kv :: tl =>
      unfold LRUCacheRepository.filter
      rw [hE]
      unfold LRUCacheRepository.filterGo
      rw [PyCallable.call_eq, har]
      simp [Except.map]

/-- `every` with a two-parameter callback raises `TypeError` likewise. -/
theorem every_arity_two_raises {α : Type} (r : LRUCacheRepository α)
    (apply : PyCallable α Unit) (har : apply.arity = 2)
    (hne : r.entries ≠ []) : r.every apply = .error .typeError := by
  match hE : r.entries with
  | [] => exact absurd hE hne
  | kv :: tl =>
      unfold LRUCacheRepository.every
      rw [hE]
      unfold LRUCacheRepository.everyGo
      rw [PyCallable.call_eq, har]
      simp

/-- **C5** (the code contradicts it): whenever the cache holds at least one
record, `__remove_expired` (hence `remove_expired()` and the scheduled
sweep) raises `TypeError` — with `last_expiration_check` already advanced —
and `cache_clear()` raises `TypeError` without clearing anything, because
`LRUCacheRepository.filter`/`every` invoke their callbacks with one argument
while `_alru_cache.py` (and `test_repository.py`) pass two-parameter
callables. -/
theorem C5_sweep_and_clear_raise (env : PyEnv) (now : ℚ)
    (st : SyncWrapperState) (h : 1 ≤ st.cache.get_size) :
    syncRemoveExpired env now st
        = (.error .typeError, { st with lastExpirationCheck := now }) ∧
    syncCacheClear st = (.error .typeError, st) := by
  have hne : st.cache.entries ≠ [] := by
    intro hE
    rw [LRUCacheRepository.get_size, hE] at h
    simp at h
  constructor
  · unfold syncRemoveExpired
    dsimp only
    rw [filter_arity_two_raises st.cache (removeExpiredCondition env now)
      rfl hne]
  · unfold syncCacheClear
    rw [every_arity_two_raises st.cache clearDestroyFunction rfl hne]

/-- Witness for C5: a cache holding one (freshly created, non-expiring)
record; both the sweep and the clear raise `TypeError`. -/
theorem C5_sweep_and_clear_raise_witness :
    (1 ≤ (SyncWrapperState.mk
        ⟨[(0, ⟨⟨Option.none, .none, false⟩, {}, .nonExpiring, .nonExpiring⟩)],
          1, true⟩ 0 1 0 1).cache.get_size) ∧
    syncRemoveExpired
        { f := fun _ => .ok .none, jitter := fun _ => 0
          funcOracle := fun _ _ => .ok .none, fuel := 0, todayDays := 0 } 5
        (SyncWrapperState.mk
          ⟨[(0, ⟨⟨Option.none, .none, false⟩, {}, .nonExpiring, .nonExpiring⟩)],
            1, true⟩ 0 1 0 1)
      = (.error .typeError,
         { SyncWrapperState.mk
            ⟨[(0, ⟨⟨Option.none, .none, false⟩, {}, .nonExpiring, .nonExpiring⟩)],
              1, true⟩ 0 1 0 1 with lastExpirationCheck := 5 }) := by
  refine ⟨by decide, ?_⟩
  exact (C5_sweep_and_clear_raise _ 5 _ (by decide)).1

/-!
## Claim C6: `maxsize = 0` disables the cache (corrected)
-/

/-- Counterexample to C6 as stated: the repository does **not** reject
inserts when `maxsize = 0` — one `add` stores the record (size 1, value
retrievable), because `__full` can never become true when `__maxsize == 0`. -/
theorem C6_counterexample_repository_accepts_insert :
    (LRUCacheRepository.init (some 0) : LRUCacheRepository Nat).add 1 42
        = .ok { entries := [(1, 42)], maxsize := 0, full := false } ∧
    ({ entries := [(1, 42)], maxsize := 0, full := false } :
        LRUCacheRepository Nat).get_size = 1 ∧
    ({ entries := [(1, 42)], maxsize := 0, full := false } :
        LRUCacheRepository Nat).get_no_adjust 1 = some 42 :=
  ⟨rfl, rfl, rfl⟩

theorem expectedResults_succ (f : Nat → Except PyVal PyVal) (start n : Nat) :
    expectedResults f start (n + 1)
      = wrapOutcome (f start) :: expectedResults f (start + 1) n := by
  unfold expectedResults
  rw [List.range_succ_eq_map, List.map_cons, List.map_map]
  have hmap : ∀ a ∈ List.range n,
      ((fun i => wrapOutcome (f (start + i))) ∘ Nat.succ) a
        = wrapOutcome (f (start + 1 + a)) := by
    intro a _
    show wrapOutcome (f (start + (a + 1))) = wrapOutcome (f (start + 1 + a))
    have harith : start + (a + 1) = start + 1 + a := by omega
    rw [harith]
  rw [List.map_congr_left hmap]
  simp

/-- The no-caching body in closed form. -/
theorem syncWrapperCallDisabled_eq (env : PyEnv) (st : SyncWrapperState) :
    syncWrapperCallDisabled env st
      = (wrapOutcome (env.f st.calls),
         { st with misses := st.misses + 1, calls := st.calls + 1 }) := by
  cases hf : env.f st.calls <;>
    simp [syncWrapperCallDisabled, wrapOutcome, hf]

/-- On a disabled cache every call takes the no-caching body: one miss and
one invocation per call, the repository never touched. -/
theorem syncWrapperRun_disabled (wenv : SyncWrapperEnv)
    (hdis : wenv.isCacheEnabled = false) (env : PyEnv) (key : Nat) :
    ∀ (ts : List ℚ) (st : SyncWrapperState),
      (syncWrapperRun wenv env key st ts).2.misses = st.misses + ts.length ∧
      (syncWrapperRun wenv env key st ts).2.calls = st.calls + ts.length ∧
      (syncWrapperRun wenv env key st ts).2.cache = st.cache ∧
      (syncWrapperRun wenv env key st ts).1
        = expectedResults env.f st.calls ts.length := by
  intro ts
  induction ts with
  | nil => intro st; simp [syncWrapperRun, expectedResults]
  | cons t ts ih =>
      intro st
      have hcall : syncWrapperCall wenv env t key st
          = (wrapOutcome (env.f st.calls),
             { st with misses := st.misses + 1, calls := st.calls + 1 }) := by
        unfold syncWrapperCall
        rw [hdis]
        simpa using syncWrapperCallDisabled_eq env st
      rw [syncWrapperRun]
      dsimp only
      rw [hcall]
      dsimp only
      obtain ⟨h1, h2, h3, h4⟩ :=
        ih { st with misses := st.misses + 1, calls := st.calls + 1 }
      refine ⟨?_, ?_, ?_, ?_⟩
      · rw [h1]; simp; omega
      · rw [h2]; simp; omega
      · rw [h3]
      · simp only [List.length_cons]
        rw [expectedResults_succ]
        simp only [List.cons.injEq]
        exact ⟨trivial, by simpa using h4⟩

/-- **C6 (amended)**: with `maxsize = 0` the *wrapper* disables caching —
`__is_cache_enabled()` is false, so the no-caching body runs: after any `n`
calls the underlying function has been invoked exactly `n` times (each call
returns that invocation's outcome), the repository still has size `0`, and
`cache_info().current_size` is `0`.  (The repository itself does *not*
reject inserts at `maxsize = 0`; see the counterexample.) -/
theorem C6_amended_disabled_cache (cfg : SyncWrapperConfig)
    (hms : cfg.maxsize = some 0) (wenv : SyncWrapperEnv)
    (hfac : syncLruCacheWrapperFactory cfg = .ok wenv) (env : PyEnv)
    (key : Nat) (ts : List ℚ) :
    (syncWrapperRun wenv env key (.init cfg) ts).2.misses = ts.length ∧
    (syncWrapperRun wenv env key (.init cfg) ts).2.calls = ts.length ∧
    (syncWrapperRun wenv env key (.init cfg) ts).2.cache.get_size = 0 ∧
    (syncCacheInfo wenv
      (syncWrapperRun wenv env key (.init cfg) ts).2).currentSize = 0 ∧
    (syncWrapperRun wenv env key (.init cfg) ts).1
      = expectedResults env.f 0 ts.length := by
  have hcfg : wenv.cfg = cfg := by
    unfold syncLruCacheWrapperFactory at hfac
    by_cases hw : cfg.wrapAsyncExitStack
    · rw [if_pos hw] at hfac; cases hfac
    · rw [if_neg hw] at hfac
      match hp : parseDurationToTimedelta cfg.expiredItemsAutoRemovalPeriod with
      | .ok p => rw [hp] at hfac; cases hfac; rfl
      | .error e => rw [hp] at hfac; cases hfac
  have hdis : wenv.isCacheEnabled = false := by
    unfold SyncWrapperEnv.isCacheEnabled
    rw [hcfg, hms]
    simp
  obtain ⟨h1, h2, h3, h4⟩ :=
    syncWrapperRun_disabled wenv hdis env key ts (.init cfg)
  refine ⟨by simpa [SyncWrapperState.init] using h1,
    by simpa [SyncWrapperState.init] using h2, ?_, ?_,
    by simpa [SyncWrapperState.init] using h4⟩
  · rw [h3]
    rfl
  · unfold syncCacheInfo
    rw [h3]
    rfl

/-- Witness for C6 (amended): three calls on a `maxsize=0` cache — three
misses, three invocations, size stays `0`. -/
theorem C6_amended_disabled_cache_witness :
    ((SyncWrapperConfig.mk true (some 0) .none (.timedelta 600) false false
        (.str "10 seconds") 0 0).maxsize = some 0) ∧
    (syncWrapperRun
        ⟨SyncWrapperConfig.mk true (some 0) .none (.timedelta 600) false false
          (.str "10 seconds") 0 0, some 600⟩
        { f := fun i => .ok (.int i), jitter := fun _ => 0
          funcOracle := fun _ _ => .ok .none, fuel := 0, todayDays := 0 }
        7
        (.init (SyncWrapperConfig.mk true (some 0) .none (.timedelta 600)
          false false (.str "10 seconds") 0 0))
        [0, 1, 2]).2.misses = 3 := by
  refine ⟨rfl, ?_⟩
  exact (C6_amended_disabled_cache
    (SyncWrapperConfig.mk true (some 0) .none (.timedelta 600) false false
      (.str "10 seconds") 0 0)
    rfl
    ⟨SyncWrapperConfig.mk true (some 0) .none (.timedelta 600) false false
      (.str "10 seconds") 0 0, some 600⟩
    rfl
    { f := fun i => .ok (.int i), jitter := fun _ => 0
      funcOracle := fun _ _ => .ok .none, fuel := 0, todayDays := 0 }
    7 [0, 1, 2]).1

/-!
## Claim C8: retry count, final outcome, and backoff schedule
-/

/-- The retry loop on an always-failing function, from any attempt index:
closed form for the final outcome, the attempt count and the sleeps. -/
theorem executeTaskGo_allFail (f : Nat → Except PyVal PyVal)
    (jitter : Nat → ℚ) (info : CacheTaskExecutionInfo) (startCall : Nat)
    (errs : Nat → PyVal) (hf : ∀ i, f i = .error (errs i)) (R : Nat)
    (hR : info.retries = (R : Int)) :
    ∀ (k retryIter : Nat) (acc : List ℚ), retryIter + k = R →
      executeTaskGo f jitter info startCall retryIter acc =
        { value := errs (startCall + R), isSuccessful := false
          calls := R + 1
          sleeps := acc ++ (if info.backoffInSeconds = 0 then [] else
            (List.range' retryIter k).map fun i =>
              info.backoffInSeconds * 2 ^ i + jitter (startCall + i)) } := by
  intro k
  induction k with
  | zero =>
      intro retryIter acc h0
      have hIter : retryIter = R := by omega
      subst hIter
      rw [executeTaskGo, hf]
      dsimp only
      rw [dif_pos (by rw [hR])]
      simp
  | succ k ih =>
      intro retryIter acc h
      rw [executeTaskGo, hf]
      dsimp only
      rw [dif_neg (by rw [hR]; intro hcon; omega)]
      rw [ih (retryIter + 1) _ (by omega)]
      by_cases hb : info.backoffInSeconds = 0
      · simp [hb]
      · simp [hb, List.range'_succ]

/-- **C8**: with `retry_count = r ≥ 0`, an always-failing function is invoked
exactly `r + 1` times by one fetch (one initial attempt plus `r` retries);
the executor then returns the last error with `isError = true` (it does not
raise from inside the loop); with `backoff_in_seconds = 0` it never sleeps,
and with a nonzero backoff it sleeps
`backoff * 2 ^ attempt + uniform(0, 1)` between failed attempts. -/
theorem C8_retry_then_give_up (f : Nat → Except PyVal PyVal)
    (jitter : Nat → ℚ) (r : Nat) (b : ℚ) (failFlag : Bool)
    (errs : Nat → PyVal) (hf : ∀ i, f i = .error (errs i)) :
    executeTask f jitter
        { fail := failFlag, retries := (r : Int), backoffInSeconds := b
          wrapAsyncExitStack := false } 0
      = { value := errs r, isSuccessful := false, calls := r + 1
          sleeps := if b = 0 then [] else
            (List.range r).map fun i => b * 2 ^ i + jitter i } := by
  unfold executeTask
  rw [executeTaskGo_allFail f jitter _ 0 errs hf r rfl r 0 [] (by omega)]
  simp [List.range_eq_range']

/-- Witness for C8: `retry_count = 3`, `backoff_in_seconds = 0`,
always-failing function ⇒ invoked exactly `4` times, final outcome is the
error with `isSuccessful = false`, and no sleeps happen. -/
theorem C8_retry_then_give_up_witness :
    executeTask (fun _ => .error (.exception "boom")) (fun _ => 0)
        { fail := true, retries := (3 : Int), backoffInSeconds := 0
          wrapAsyncExitStack := false } 0
      = { value := .exception "boom", isSuccessful := false, calls := 3 + 1
          sleeps := if (0 : ℚ) = 0 then [] else
            (List.range 3).map fun i => (0 : ℚ) * 2 ^ i + 0 } :=
  C8_retry_then_give_up (fun _ => .error (.exception "boom")) (fun _ => 0)
    3 0 true (fun _ => .exception "boom") (fun _ => rfl)

/-!
## Claim C7: negative caching on and off
-/

/-- `__schedule_remove_expired` on an empty cache never raises and only
(possibly) advances the timestamp. -/
theorem schedule_empty (wenv : SyncWrapperEnv) (env : PyEnv) (now : ℚ)
    (st : SyncWrapperState) (hcache : st.cache.entries = []) :
    ∃ lc, syncScheduleRemoveExpired wenv env now st
      = (.ok (), { st with lastExpirationCheck := lc }) := by
  have hceta : { st.cache with entries := ([] : List (Nat × SyncCachedRecord)) }
      = st.cache := by
    rw [← hcache]
  unfold syncScheduleRemoveExpired
  match wenv.expiryPeriod with
  | Option.none => exact ⟨st.lastExpirationCheck, rfl⟩
  | some p =>
      dsimp only
      by_cases hcond : now - st.lastExpirationCheck ≥ p
      · rw [if_pos hcond]
        refine ⟨now, ?_⟩
        unfold syncRemoveExpired
        dsimp only
        have hfil : st.cache.filter (removeExpiredCondition env now)
            = .ok ([], st.cache) := by
          unfold LRUCacheRepository.filter
          rw [hcache]
          unfold LRUCacheRepository.filterGo
          simp [Except.map, hceta]
        rw [hfil]
      · rw [if_neg hcond]
        exact ⟨st.lastExpirationCheck, rfl⟩

/-- `__is_cache_enabled()` is true for an enabled cache with nonzero
`maxsize`. -/
theorem isCacheEnabled_sized (wenv : SyncWrapperEnv) (m : Nat) (hm : m ≠ 0)
    (hms : wenv.cfg.maxsize = some m) (hen : wenv.cfg.enabled = true) :
    wenv.isCacheEnabled = true := by
  unfold SyncWrapperEnv.isCacheEnabled
  rw [hms, hen]
  simp [hm]

/-- The record a miss constructs, given how the two expiration values
resolve. -/
theorem mkSyncRecord_eq (wenv : SyncWrapperEnv) (env : PyEnv) (now : ℚ)
    (expPol negPol : CacheExpiration)
    (hexp : get_cache_expiration (env.clock now) wenv.cfg.expiration false
      (some .nonExpiring) = .ok expPol)
    (hneg : get_cache_expiration (env.clock now) wenv.cfg.negativeExpiration
      false (some .nonExpiring) = .ok negPol)
    (hsync : expPol.isAsync = false) (hsyncn : negPol.isAsync = false) :
    mkSyncRecord wenv env now
      = .ok { cachedValue := ⟨Option.none, .none, false⟩
              execInfo :=
                { fail := !wenv.cfg.negativeCache
                  retries := wenv.cfg.retryCount
                  backoffInSeconds := wenv.cfg.backoffInSeconds
                  wrapAsyncExitStack := false }
              expiration := expPol
              negativeExpiration := negPol } := by
  unfold mkSyncRecord
  rw [hexp, hneg]
  show SyncCachedRecord.init _ _ _ = _
  unfold SyncCachedRecord.init
  rw [hsync, hsyncn]
  simp

/-- `get_cached` on a fresh record whose function always fails, with
`retries = 0`: one invocation, the error is stored, and it is re-raised iff
`fail` is set. -/
theorem get_cached_fresh_fail (env : PyEnv) (now : ℚ)
    (rec : SyncCachedRecord) (calls : Nat)
    (hfresh : rec.cachedValue.lastFetched = Option.none)
    (hret : rec.execInfo.retries = (0 : Int))
    (errs : Nat → PyVal) (hfail : ∀ i, env.f i = .error (errs i)) :
    SyncCachedRecord.get_cached env now rec calls
      = (if rec.execInfo.fail then .error (.userRaised (errs calls))
         else .ok (errs calls),
         { rec with cachedValue :=
             ⟨some now, errs calls, true⟩ }, calls + 1) := by
  have hexec : executeTask env.f env.jitter rec.execInfo calls
      = { value := errs calls, isSuccessful := false, calls := 1
          sleeps := [] } := by
    unfold executeTask
    rw [executeTaskGo_allFail env.f env.jitter rec.execInfo calls errs hfail
      0 hret 0 0 [] (by omega)]
    simp
  unfold SyncCachedRecord.get_cached
  rw [hfresh]
  dsimp only
  unfold SyncCachedRecord.store_cache
  rw [hexec]
  dsimp only
  by_cases hf : rec.execInfo.fail
  · rw [if_pos hf]
    simp [hf]
  · rw [if_neg hf]
    simp [hf]

/-- One wrapper call with negative caching **off** (`fail = True`), an
always-failing function and an empty cache: the call re-raises, nothing is
inserted, the counters move by one. -/
theorem sizedCall_fail_empty (wenv : SyncWrapperEnv) (env : PyEnv) (key : Nat)
    (m : Nat) (hm : m ≠ 0) (hms : wenv.cfg.maxsize = some m)
    (hen : wenv.cfg.enabled = true)
    (hnegc : wenv.cfg.negativeCache = false)
    (hr : wenv.cfg.retryCount = 0)
    (expPol negPol : CacheExpiration)
    (hexp : ∀ q, get_cache_expiration (env.clock q) wenv.cfg.expiration false
      (some .nonExpiring) = .ok expPol)
    (hneg : ∀ q, get_cache_expiration (env.clock q)
      wenv.cfg.negativeExpiration false (some .nonExpiring) = .ok negPol)
    (hsync : expPol.isAsync = false) (hsyncn : negPol.isAsync = false)
    (errs : Nat → PyVal) (hfail : ∀ i, env.f i = .error (errs i))
    (t : ℚ) (st : SyncWrapperState) (hcache : st.cache.entries = []) :
    ∃ lc, syncWrapperCall wenv env t key st
      = (.error (.userRaised (errs st.calls)),
         { st with misses := st.misses + 1, calls := st.calls + 1
                   lastExpirationCheck := lc }) := by
  obtain ⟨lc, hsched⟩ := schedule_empty wenv env t st hcache
  refine ⟨lc, ?_⟩
  unfold syncWrapperCall
  rw [isCacheEnabled_sized wenv m hm hms hen, hms]
  show syncWrapperCallSized wenv env t key st = _
  unfold syncWrapperCallSized
  rw [hsched]
  dsimp only
  have hget : ({ st with lastExpirationCheck := lc } :
      SyncWrapperState).cache.get key
      = (Option.none, st.cache) := by
    show st.cache.get key = _
    exact LRUCacheRepository.get_absent (by rw [hcache]; simp)
  rw [hget]
  dsimp only
  rw [mkSyncRecord_eq wenv env t expPol negPol (hexp t) (hneg t) hsync hsyncn]
  dsimp only
  rw [get_cached_fresh_fail env t _ st.calls rfl (by simpa using hr) errs
    hfail]
  rw [if_pos (by rw [hnegc]; rfl)]

/-- `__schedule_remove_expired` when the sweep condition does not hold: no
state change. -/
theorem schedule_skip (wenv : SyncWrapperEnv) (env : PyEnv) (now : ℚ)
    (st : SyncWrapperState) (P : ℚ) (hP : wenv.expiryPeriod = some P)
    (hcond : ¬ now - st.lastExpirationCheck ≥ P) :
    syncScheduleRemoveExpired wenv env now st = (.ok (), st) := by
  unfold syncScheduleRemoveExpired
  rw [hP]
  dsimp only
  rw [if_neg hcond]

/-- `__schedule_remove_expired` on an empty cache when the sweep condition
holds: the sweep runs on nothing and stamps the time. -/
theorem schedule_empty_fires (wenv : SyncWrapperEnv) (env : PyEnv) (now : ℚ)
    (st : SyncWrapperState) (P : ℚ) (hP : wenv.expiryPeriod = some P)
    (hcond : now - st.lastExpirationCheck ≥ P)
    (hcache : st.cache.entries = []) :
    syncScheduleRemoveExpired wenv env now st
      = (.ok (), { st with lastExpirationCheck := now }) := by
  have hceta : { st.cache with entries := ([] : List (Nat × SyncCachedRecord)) }
      = st.cache := by
    rw [← hcache]
  unfold syncScheduleRemoveExpired
  rw [hP]
  dsimp only
  rw [if_pos hcond]
  unfold syncRemoveExpired
  dsimp only
  have hfil : st.cache.filter (removeExpiredCondition env now)
      = .ok ([], st.cache) := by
    unfold LRUCacheRepository.filter
    rw [hcache]
    unfold LRUCacheRepository.filterGo
    simp [Except.map, hceta]
  rw [hfil]

/-- `get` on a repository holding exactly one entry for that key: a hit that
leaves the ring unchanged. -/
theorem get_single {α : Type} (key : Nat) (v : α) (m : Nat) (fl : Bool) :
    (⟨[(key, v)], m, fl⟩ : LRUCacheRepository α).get key
      = (some v, ⟨[(key, v)], m, fl⟩) := by
  unfold LRUCacheRepository.get
  simp [List.find?, List.eraseP]

/-- `get_cached` on a cached error under an unelapsed `Refreshing` negative
policy: the error object is returned as a normal value and nothing runs. -/
theorem get_cached_hit_negRefreshing (env : PyEnv) (now t1 negT : ℚ)
    (rec : SyncCachedRecord) (calls : Nat)
    (hlf : rec.cachedValue.lastFetched = some t1)
    (herr : rec.cachedValue.isError = true)
    (hnegp : rec.negativeExpiration = .refreshing negT)
    (hfresh : ¬ now - t1 ≥ negT) :
    SyncCachedRecord.get_cached env now rec calls
      = (.ok rec.cachedValue.value, rec, calls) := by
  have hexp : SyncCachedRecord.is_expired env now rec = .ok false := by
    unfold SyncCachedRecord.is_expired
    rw [hlf]
    dsimp only
    rw [herr, hnegp]
    simp [isValueExpired, PyEnv.clock, hlf, hfresh]
  unfold SyncCachedRecord.get_cached
  rw [hlf]
  dsimp only
  rw [hexp]

theorem expectedRaised_succ (errs : Nat → PyVal) (start n : Nat) :
    expectedRaised errs start (n + 1)
      = .error (.userRaised (errs start)) :: expectedRaised errs (start + 1) n := by
  unfold expectedRaised
  rw [List.range_succ_eq_map, List.map_cons, List.map_map]
  have hmap : ∀ a ∈ List.range n,
      ((fun i => (Except.error (PyErr.userRaised (errs (start + i))) :
          Except PyErr PyVal)) ∘ Nat.succ) a
        = (fun i => (Except.error (PyErr.userRaised (errs (start + 1 + i))) :
            Except PyErr PyVal)) a := by
    intro a _
    show Except.error (PyErr.userRaised (errs (start + (a + 1)))) = _
    have harith : start + (a + 1) = start + 1 + a := by omega
    rw [harith]
  rw [List.map_congr_left hmap]
  simp

/-- Iterating always-failing calls with negative caching off: every call
raises the corresponding invocation's error, nothing is ever cached, and the
function runs once per call. -/
theorem runCalls_fail_noCache (wenv : SyncWrapperEnv) (env : PyEnv)
    (key : Nat) (m : Nat) (hm : m ≠ 0) (hms : wenv.cfg.maxsize = some m)
    (hen : wenv.cfg.enabled = true)
    (hnegc : wenv.cfg.negativeCache = false)
    (hr : wenv.cfg.retryCount = 0)
    (expPol negPol : CacheExpiration)
    (hexp : ∀ q, get_cache_expiration (env.clock q) wenv.cfg.expiration false
      (some .nonExpiring) = .ok expPol)
    (hneg : ∀ q, get_cache_expiration (env.clock q)
      wenv.cfg.negativeExpiration false (some .nonExpiring) = .ok negPol)
    (hsync : expPol.isAsync = false) (hsyncn : negPol.isAsync = false)
    (errs : Nat → PyVal) (hfail : ∀ i, env.f i = .error (errs i)) :
    ∀ (ts : List ℚ) (st : SyncWrapperState), st.cache.entries = [] →
      (syncWrapperRun wenv env key st ts).1
        = expectedRaised errs st.calls ts.length ∧
      (syncWrapperRun wenv env key st ts).2.calls = st.calls + ts.length ∧
      (syncWrapperRun wenv env key st ts).2.cache.entries = [] ∧
      (syncWrapperRun wenv env key st ts).2.misses
        = st.misses + ts.length := by
  intro ts
  induction ts with
  | nil => intro st hcache; simp [syncWrapperRun, hcache, expectedRaised]
  | cons t ts ih =>
      intro st hcache
      obtain ⟨lc, hcall⟩ := sizedCall_fail_empty wenv env key m hm hms hen
        hnegc hr expPol negPol hexp hneg hsync hsyncn errs hfail t st hcache
      rw [syncWrapperRun]
      dsimp only
      rw [hcall]
      dsimp only
      obtain ⟨h1, h2, h3, h4⟩ := ih
        { st with misses := st.misses + 1, calls := st.calls + 1
                  lastExpirationCheck := lc } (by simpa using hcache)
      refine ⟨?_, ?_, by simpa using h3, ?_⟩
      · simp only [List.length_cons]
        rw [expectedRaised_succ]
        simp only [List.cons.injEq]
        exact ⟨trivial, by simpa using h1⟩
      · rw [h2]; simp; omega
      · rw [h4]; simp; omega

/-- With negative caching **on** (`fail = False`) and the negative policy a
`Refreshing` interval `negT`: the first call stores the exception as the
cached outcome and returns it; a second call before `negT` has elapsed
returns the very same error object without re-invoking the function. -/
theorem negativeCache_on_two_calls (wenv : SyncWrapperEnv) (env : PyEnv)
    (key : Nat) (m : Nat) (hm : m ≠ 0) (hms : wenv.cfg.maxsize = some m)
    (hen : wenv.cfg.enabled = true)
    (hnegc : wenv.cfg.negativeCache = true)
    (hr : wenv.cfg.retryCount = 0)
    (expPol : CacheExpiration) (negT : ℚ)
    (hexp : ∀ q, get_cache_expiration (env.clock q) wenv.cfg.expiration false
      (some .nonExpiring) = .ok expPol)
    (hneg : ∀ q, get_cache_expiration (env.clock q)
      wenv.cfg.negativeExpiration false (some .nonExpiring)
        = .ok (.refreshing negT))
    (hsync : expPol.isAsync = false)
    (errs : Nat → PyVal) (hfail : ∀ i, env.f i = .error (errs i))
    (P t1 t2 : ℚ) (hP : wenv.expiryPeriod = some P)
    (h1P : t1 - 0 ≥ P) (h2P : ¬ t2 - t1 ≥ P) (hneg2 : ¬ t2 - t1 ≥ negT) :
    (syncWrapperRun wenv env key (.init wenv.cfg) [t1, t2]).1
        = [.ok (errs 0), .ok (errs 0)] ∧
    (syncWrapperRun wenv env key (.init wenv.cfg) [t1, t2]).2.calls = 1 ∧
    (syncWrapperRun wenv env key (.init wenv.cfg) [t1, t2]).2.cache.entries
        = [(key,
            { cachedValue := ⟨some t1, errs 0, true⟩
              execInfo :=
                { fail := false, retries := wenv.cfg.retryCount
                  backoffInSeconds := wenv.cfg.backoffInSeconds
                  wrapAsyncExitStack := false }
              expiration := expPol
              negativeExpiration := .refreshing negT })] := by
  set recE : SyncCachedRecord :=
    { cachedValue := ⟨some t1, errs 0, true⟩
      execInfo :=
        { fail := false, retries := wenv.cfg.retryCount
          backoffInSeconds := wenv.cfg.backoffInSeconds
          wrapAsyncExitStack := false }
      expiration := expPol
      negativeExpiration := .refreshing negT } with hrecE
  have hinit : (SyncWrapperState.init wenv.cfg)
      = { cache := .init (some m), hits := 0, misses := 0
          lastExpirationCheck := 0, calls := 0 } := by
    unfold SyncWrapperState.init
    rw [hms]
  have hstep1 : syncWrapperCall wenv env t1 key
      { cache := .init (some m), hits := 0, misses := 0
        lastExpirationCheck := 0, calls := 0 }
      = (.ok (errs 0),
         { cache := ⟨[(key, recE)], m, (m != 0) && decide (0 + 1 ≥ m)⟩
           hits := 0, misses := 1, lastExpirationCheck := t1, calls := 1 }) := by
    unfold syncWrapperCall
    rw [isCacheEnabled_sized wenv m hm hms hen, hms]
    show syncWrapperCallSized wenv env t1 key _ = _
    unfold syncWrapperCallSized
    rw [schedule_empty_fires wenv env t1 _ P hP (by simpa using h1P) rfl]
    dsimp only
    have hget : (LRUCacheRepository.init (some m) :
        LRUCacheRepository SyncCachedRecord).get key
        = (Option.none, LRUCacheRepository.init (some m)) :=
      LRUCacheRepository.get_absent (by simp [LRUCacheRepository.init])
    rw [hget]
    dsimp only
    rw [mkSyncRecord_eq wenv env t1 expPol (.refreshing negT) (hexp t1)
      (hneg t1) hsync rfl]
    dsimp only
    rw [get_cached_fresh_fail env t1 _ 0 rfl (by simpa using hr) errs hfail]
    rw [if_neg (by rw [hnegc]; simp)]
    dsimp only
    have hadd : (LRUCacheRepository.init (some m) :
        LRUCacheRepository SyncCachedRecord).add key
          { cachedValue := ⟨some t1, errs 0, true⟩
            execInfo :=
              { fail := !wenv.cfg.negativeCache
                retries := wenv.cfg.retryCount
                backoffInSeconds := wenv.cfg.backoffInSeconds
                wrapAsyncExitStack := false }
            expiration := expPol
            negativeExpiration := .refreshing negT }
        = .ok ⟨[(key, recE)], m, (m != 0) && decide (0 + 1 ≥ m)⟩ := by
      unfold LRUCacheRepository.add LRUCacheRepository.has
      simp [LRUCacheRepository.init, hrecE, hnegc]
    rw [hadd]
  have hstep2 : syncWrapperCall wenv env t2 key
      { cache := ⟨[(key, recE)], m, (m != 0) && decide (0 + 1 ≥ m)⟩
        hits := 0, misses := 1, lastExpirationCheck := t1, calls := 1 }
      = (.ok (errs 0),
         { cache := ⟨[(key, recE)], m, (m != 0) && decide (0 + 1 ≥ m)⟩
           hits := 1, misses := 1, lastExpirationCheck := t1, calls := 1 }) := by
    unfold syncWrapperCall
    rw [isCacheEnabled_sized wenv m hm hms hen, hms]
    show syncWrapperCallSized wenv env t2 key _ = _
    unfold syncWrapperCallSized
    rw [schedule_skip wenv env t2 _ P hP (by simpa using h2P)]
    dsimp only
    rw [get_single key recE m _]
    dsimp only
    rw [get_cached_hit_negRefreshing env t2 t1 negT recE 1 rfl rfl rfl hneg2]
    dsimp only
    have hset : (⟨[(key, recE)], m, (m != 0) && decide (0 + 1 ≥ m)⟩ :
        LRUCacheRepository SyncCachedRecord).setValue key recE
        = ⟨[(key, recE)], m, (m != 0) && decide (0 + 1 ≥ m)⟩ := by
      unfold LRUCacheRepository.setValue
      simp
    rw [hset]
  have hcons : ∀ (st : SyncWrapperState) (t : ℚ) (ts : List ℚ),
      syncWrapperRun wenv env key st (t :: ts)
        = ((syncWrapperCall wenv env t key st).1 ::
            (syncWrapperRun wenv env key
              (syncWrapperCall wenv env t key st).2 ts).1,
           (syncWrapperRun wenv env key
              (syncWrapperCall wenv env t key st).2 ts).2) :=
    fun _ _ _ => rfl
  have hrun : syncWrapperRun wenv env key (.init wenv.cfg) [t1, t2]
      = ([.ok (errs 0), .ok (errs 0)],
         { cache := ⟨[(key, recE)], m, (m != 0) && decide (0 + 1 ≥ m)⟩
           hits := 1, misses := 1, lastExpirationCheck := t1, calls := 1 }) := by
    rw [hinit, hcons, hstep1]
    dsimp only
    rw [hcons, hstep2]
    rfl
  rw [hrun]
  exact ⟨rfl, rfl, rfl⟩

/-- **C7**: with `negative_cache = False` an always-raising function makes
every call through the cache re-raise that call's error; the failure is
never cached (the repository stays empty and the function is re-invoked on
every call).  With `negative_cache = True` (negative policy: a `Refreshing`
interval `negT`) the first call stores the exception as the cached outcome
and returns it, and a second call made before `negT` elapses returns the
same error object without re-invoking the function (one invocation in
total). -/
theorem C7_negative_cache :
    (∀ (wenv : SyncWrapperEnv) (env : PyEnv) (key m : Nat), m ≠ 0 →
      wenv.cfg.maxsize = some m → wenv.cfg.enabled = true →
      wenv.cfg.negativeCache = false → wenv.cfg.retryCount = 0 →
      ∀ (expPol negPol : CacheExpiration),
        (∀ q, get_cache_expiration (env.clock q) wenv.cfg.expiration false
          (some .nonExpiring) = .ok expPol) →
        (∀ q, get_cache_expiration (env.clock q)
          wenv.cfg.negativeExpiration false (some .nonExpiring)
            = .ok negPol) →
        expPol.isAsync = false → negPol.isAsync = false →
        ∀ (errs : Nat → PyVal), (∀ i, env.f i = .error (errs i)) →
        ∀ (ts : List ℚ),
          (syncWrapperRun wenv env key (.init wenv.cfg) ts).1
              = expectedRaised errs 0 ts.length ∧
          (syncWrapperRun wenv env key (.init wenv.cfg) ts).2.cache.entries
              = [] ∧
          (syncWrapperRun wenv env key (.init wenv.cfg) ts).2.calls
              = ts.length) ∧
    (∀ (wenv : SyncWrapperEnv) (env : PyEnv) (key m : Nat), m ≠ 0 →
      wenv.cfg.maxsize = some m → wenv.cfg.enabled = true →
      wenv.cfg.negativeCache = true → wenv.cfg.retryCount = 0 →
      ∀ (expPol : CacheExpiration) (negT : ℚ),
        (∀ q, get_cache_expiration (env.clock q) wenv.cfg.expiration false
          (some .nonExpiring) = .ok expPol) →
        (∀ q, get_cache_expiration (env.clock q)
          wenv.cfg.negativeExpiration false (some .nonExpiring)
            = .ok (.refreshing negT)) →
        expPol.isAsync = false →
        ∀ (errs : Nat → PyVal), (∀ i, env.f i = .error (errs i)) →
        ∀ (P t1 t2 : ℚ), wenv.expiryPeriod = some P →
          t1 - 0 ≥ P → ¬ t2 - t1 ≥ P → ¬ t2 - t1 ≥ negT →
          (syncWrapperRun wenv env key (.init wenv.cfg) [t1, t2]).1
              = [.ok (errs 0), .ok (errs 0)] ∧
          (syncWrapperRun wenv env key (.init wenv.cfg) [t1, t2]).2.calls
              = 1 ∧
          (syncWrapperRun wenv env key (.init wenv.cfg) [t1, t2]).2.cache.entries
              = [(key,
                  { cachedValue := ⟨some t1, errs 0, true⟩
                    execInfo :=
                      { fail := false, retries := wenv.cfg.retryCount
                        backoffInSeconds := wenv.cfg.backoffInSeconds
                        wrapAsyncExitStack := false }
                    expiration := expPol
                    negativeExpiration := .refreshing negT })]) := by
  constructor
  · intro wenv env key m hm hms hen hnegc hr expPol negPol hexp hneg hsync
      hsyncn errs hfail ts
    obtain ⟨h1, h2, h3, h4⟩ := runCalls_fail_noCache wenv env key m hm hms
      hen hnegc hr expPol negPol hexp hneg hsync hsyncn errs hfail ts
      (.init wenv.cfg) (by rfl)
    refine ⟨by simpa [SyncWrapperState.init] using h1, h3, ?_⟩
    simpa [SyncWrapperState.init] using h2
  · intro wenv env key m hm hms hen hnegc hr expPol negT hexp hneg hsync
      errs hfail P t1 t2 hP h1P h2P hneg2
    exact negativeCache_on_two_calls wenv env key m hm hms hen hnegc hr
      expPol negT hexp hneg hsync errs hfail P t1 t2 hP h1P h2P hneg2

/-- Witness for C7: with `negative_cache=False` one call at `t=700` raises
the function's error and caches nothing; with `negative_cache=True` calls at
`t=700` and `t=705` (within the 10-second negative expiration) return the
same error object with a single invocation. -/
theorem C7_negative_cache_witness :
    ((syncWrapperRun ⟨c7CfgOff, some 600⟩ c7Env 0
        (.init c7CfgOff) [700]).1
          = expectedRaised (fun _ => .exception "boom") 0 1 ∧
      (syncWrapperRun ⟨c7CfgOff, some 600⟩ c7Env 0
        (.init c7CfgOff) [700]).2.cache.entries = [] ∧
      (syncWrapperRun ⟨c7CfgOff, some 600⟩ c7Env 0
        (.init c7CfgOff) [700]).2.calls = 1) ∧
    ((syncWrapperRun ⟨c7CfgOn, some 600⟩ c7Env 0
        (.init c7CfgOn) [700, 705]).1
          = [.ok (.exception "boom"), .ok (.exception "boom")] ∧
      (syncWrapperRun ⟨c7CfgOn, some 600⟩ c7Env 0
        (.init c7CfgOn) [700, 705]).2.calls = 1 ∧
      (syncWrapperRun ⟨c7CfgOn, some 600⟩ c7Env 0
        (.init c7CfgOn) [700, 705]).2.cache.entries
          = [(0, { cachedValue := ⟨some 700, .exception "boom", true⟩
                   execInfo :=
                     { fail := false, retries := 0, backoffInSeconds := 0
                       wrapAsyncExitStack := false }
                   expiration := .nonExpiring
                   negativeExpiration := .refreshing 10 })]) := by
  constructor
  · exact C7_negative_cache.1 ⟨c7CfgOff, some 600⟩ c7Env 0 1 (by decide)
      rfl rfl rfl rfl .nonExpiring (.refreshing 10) (fun _ => rfl)
      (fun _ => rfl) rfl rfl (fun _ => .exception "boom") (fun _ => rfl)
      [700]
  · exact C7_negative_cache.2 ⟨c7CfgOn, some 600⟩ c7Env 0 1 (by decide)
      rfl rfl rfl rfl .nonExpiring 10 (fun _ => rfl) (fun _ => rfl) rfl
      (fun _ => .exception "boom") (fun _ => rfl) 600 700 705 rfl
      (by norm_num) (by norm_num) (by norm_num)

/-!
## Claim C10: the default expirations
-/

/-- `get_cached` on an unexpired non-error cached value under the
`NonExpiring` positive policy: the cached value is returned and nothing
runs, at every later instant. -/
theorem get_cached_hit_nonExpiring (env : PyEnv) (now : ℚ)
    (rec : SyncCachedRecord) (calls : Nat) (t1 : ℚ)
    (hlf : rec.cachedValue.lastFetched = some t1)
    (herr : rec.cachedValue.isError = false)
    (hpol : rec.expiration = .nonExpiring) :
    SyncCachedRecord.get_cached env now rec calls
      = (.ok rec.cachedValue.value, rec, calls) := by
  have hexp : SyncCachedRecord.is_expired env now rec = .ok false := by
    unfold SyncCachedRecord.is_expired
    rw [hlf]
    dsimp only
    rw [herr, hpol]
    simp [isValueExpired, hlf]
  unfold SyncCachedRecord.get_cached
  rw [hlf]
  dsimp only
  rw [hexp]

/-- `get_cached` on a cached error whose `Refreshing` negative interval has
elapsed, `retries = 0`, `fail = false`: the always-failing function is
re-invoked once and the fresh error is returned as a value. -/
theorem get_cached_negExpired_refetch (env : PyEnv) (now t1 negT : ℚ)
    (rec : SyncCachedRecord) (calls : Nat)
    (hlf : rec.cachedValue.lastFetched = some t1)
    (herr : rec.cachedValue.isError = true)
    (hnegp : rec.negativeExpiration = .refreshing negT)
    (hstale : now - t1 ≥ negT)
    (hr : rec.execInfo.retries = (0 : Int))
    (hnofail : rec.execInfo.fail = false)
    (errs : Nat → PyVal) (hfail : ∀ i, env.f i = .error (errs i)) :
    SyncCachedRecord.get_cached env now rec calls
      = (.ok (errs calls),
         { rec with cachedValue := ⟨some now, errs calls, true⟩ },
         calls + 1) := by
  have hexpd : SyncCachedRecord.is_expired env now rec = .ok true := by
    unfold SyncCachedRecord.is_expired
    rw [hlf]
    dsimp only
    rw [herr, hnegp]
    simp [isValueExpired, PyEnv.clock, hlf, hstale]
  have hexec : executeTask env.f env.jitter rec.execInfo calls
      = { value := errs calls, isSuccessful := false, calls := 1
          sleeps := [] } := by
    unfold executeTask
    rw [executeTaskGo_allFail env.f env.jitter rec.execInfo calls errs hfail
      0 hr 0 0 [] (by omega)]
    simp
  unfold SyncCachedRecord.get_cached
  rw [hlf]
  dsimp only
  rw [hexpd]
  dsimp only
  unfold SyncCachedRecord.store_cache
  rw [hexec]
  dsimp only
  rw [hnofail]
  simp

/-- C10 (implicit defaults): with the `alru_cache` defaults the positive
expiration (`None`) resolves to `NonExpiring` and the negative expiration
(the string `"10 seconds"`) resolves to a 10-second `Refreshing` interval;
consequently a successfully cached value is returned at every later instant
without re-invoking the function, a cached error younger than 10 seconds is
returned as-is, and once 10 seconds have elapsed the (always-failing,
`negative_cache=True`, no-retry) function is re-invoked exactly once. -/
theorem C10_default_expirations :
    (∀ clock : Clock,
      get_cache_expiration clock alruCacheDefaults.expiration false
          (some .nonExpiring) = .ok .nonExpiring ∧
      get_cache_expiration clock alruCacheDefaults.negativeExpiration false
          (some .nonExpiring) = .ok (.refreshing 10)) ∧
    (∀ (env : PyEnv) (now t1 : ℚ) (rec : SyncCachedRecord) (calls : Nat),
      rec.cachedValue.lastFetched = some t1 →
      rec.cachedValue.isError = false →
      rec.expiration = .nonExpiring →
      SyncCachedRecord.get_cached env now rec calls
        = (.ok rec.cachedValue.value, rec, calls)) ∧
    (∀ (env : PyEnv) (now t1 : ℚ) (rec : SyncCachedRecord) (calls : Nat),
      rec.cachedValue.lastFetched = some t1 →
      rec.cachedValue.isError = true →
      rec.negativeExpiration = .refreshing 10 →
      ¬ now - t1 ≥ 10 →
      SyncCachedRecord.get_cached env now rec calls
        = (.ok rec.cachedValue.value, rec, calls)) ∧
    (∀ (env : PyEnv) (now t1 : ℚ) (rec : SyncCachedRecord) (calls : Nat)
        (errs : Nat → PyVal),
      rec.cachedValue.lastFetched = some t1 →
      rec.cachedValue.isError = true →
      rec.negativeExpiration = .refreshing 10 →
      now - t1 ≥ 10 →
      rec.execInfo.retries = (0 : Int) →
      rec.execInfo.fail = false →
      (∀ i, env.f i = .error (errs i)) →
      SyncCachedRecord.get_cached env now rec calls
        = (.ok (errs calls),
           { rec with cachedValue := ⟨some now, errs calls, true⟩ },
           calls + 1)) := by
  refine ⟨fun clock => ⟨rfl, rfl⟩, ?_, ?_, ?_⟩
  · intro env now t1 rec calls hlf herr hpol
    exact get_cached_hit_nonExpiring env now rec calls t1 hlf herr hpol
  · intro env now t1 rec calls hlf herr hpol hfresh
    exact get_cached_hit_negRefreshing env now t1 10 rec calls hlf herr
      hpol hfresh
  · intro env now t1 rec calls errs hlf herr hpol hstale hr hnofail hfail
    exact get_cached_negExpired_refetch env now t1 10 rec calls hlf herr
      hpol hstale hr hnofail errs hfail

/-- Witness for C10: the two default resolutions at a concrete clock; a
cached success served unchanged much later; a cached error served unchanged
5 seconds after it was stored; the same record re-invoking the failing
function 10 seconds later. -/
theorem C10_default_expirations_witness :
    (get_cache_expiration ⟨0, 0⟩ alruCacheDefaults.expiration false
        (some .nonExpiring) = .ok .nonExpiring ∧
      get_cache_expiration ⟨0, 0⟩ alruCacheDefaults.negativeExpiration false
        (some .nonExpiring) = .ok (.refreshing 10)) ∧
    SyncCachedRecord.get_cached c10Env 1000000 c10SuccessRec 5
      = (.ok (.int 7), c10SuccessRec, 5) ∧
    SyncCachedRecord.get_cached c10Env 105 c10ErrorRec 0
      = (.ok (.exception "bang"), c10ErrorRec, 0) ∧
    SyncCachedRecord.get_cached c10Env 110 c10ErrorRec 0
      = (.ok (.exception "bang"),
         { c10ErrorRec with
             cachedValue := ⟨some 110, .exception "bang", true⟩ }, 1) := by
  refine ⟨C10_default_expirations.1 ⟨0, 0⟩, ?_, ?_, ?_⟩
  · exact C10_default_expirations.2.1 c10Env 1000000 100 c10SuccessRec 5
      rfl rfl rfl
  · exact C10_default_expirations.2.2.1 c10Env 105 100 c10ErrorRec 0
      rfl rfl rfl (by norm_num)
  · exact C10_default_expirations.2.2.2 c10Env 110 100 c10ErrorRec 0
      (fun _ => .exception "bang") rfl rfl rfl (by norm_num) rfl rfl
      (fun _ => rfl)

/-!
## Claim C9: the `AttributePath` expiration policy
-/

/-- `SyncAttributeCacheExpiration.is_value_expired` when the path resolves
to a `datetime`: the extracted value is re-resolved through
`get_cache_expiration` to a `DateCacheExpiration`, which compares
`last_fetched` against the extracted date. -/
theorem syncAttr_datetime_eval (clock : Clock)
    (oracle : Nat → CachedValueM → Except PyErr PyVal) (fuel : Nat)
    (p : String) (cv : CachedValueM) (d lf : ℚ)
    (hext : extract_from_obj cv.value p = .ok (.datetime d))
    (hlf : cv.lastFetched = some lf) :
    isValueExpired clock oracle (fuel + 1) (.syncAttr p) cv
      = .ok (decide (lf ≥ d)) := by
  rw [isValueExpired, hext]
  show isValueExpired clock oracle fuel
      (getCacheExpirationFromTime clock (.dt d)) cv = _
  rw [getCacheExpirationFromTime, isValueExpired, hlf]

/-- `SyncAttributeCacheExpiration.is_value_expired` when the path does not
resolve: the `ExtractionError` raised by `extract_from_obj` propagates. -/
theorem syncAttr_missing_eval (clock : Clock)
    (oracle : Nat → CachedValueM → Except PyErr PyVal) (fuel : Nat)
    (p : String) (cv : CachedValueM) (e : PyErr)
    (hext : extract_from_obj cv.value p = .error e) :
    isValueExpired clock oracle (fuel + 1) (.syncAttr p) cv = .error e := by
  rw [isValueExpired, hext]
  rfl

/-- C9: the `AttributePath` policy extracts the dotted-path field from the
cached value and re-resolves it through `get_cache_expiration`: a cached
value holding a date at the path that `last_fetched` has reached is
expired, one holding a still-future date is not, and whenever the path does
not resolve the evaluation raises the extraction error instead of treating
the value as non-expiring. -/
theorem C9_attribute_path_expiry :
    (∀ (clock : Clock) (oracle : Nat → CachedValueM → Except PyErr PyVal)
        (fuel : Nat) (p : String) (cv : CachedValueM) (d lf : ℚ),
      extract_from_obj cv.value p = .ok (.datetime d) →
      cv.lastFetched = some lf →
      lf ≥ d →
      isValueExpired clock oracle (fuel + 1) (.syncAttr p) cv = .ok true) ∧
    (∀ (clock : Clock) (oracle : Nat → CachedValueM → Except PyErr PyVal)
        (fuel : Nat) (p : String) (cv : CachedValueM) (d lf : ℚ),
      extract_from_obj cv.value p = .ok (.datetime d) →
      cv.lastFetched = some lf →
      lf < d →
      isValueExpired clock oracle (fuel + 1) (.syncAttr p) cv = .ok false) ∧
    (∀ (clock : Clock) (oracle : Nat → CachedValueM → Except PyErr PyVal)
        (fuel : Nat) (p : String) (cv : CachedValueM) (e : PyErr),
      extract_from_obj cv.value p = .error e →
      isValueExpired clock oracle (fuel + 1) (.syncAttr p) cv
        = .error e) := by
  refine ⟨?_, ?_, ?_⟩
  · intro clock oracle fuel p cv d lf hext hlf hpast
    rw [syncAttr_datetime_eval clock oracle fuel p cv d lf hext hlf]
    simp [hpast]
  · intro clock oracle fuel p cv d lf hext hlf hfuture
    rw [syncAttr_datetime_eval clock oracle fuel p cv d lf hext hlf]
    simp [not_le.mpr hfuture]
  · intro clock oracle fuel p cv e hext
    exact syncAttr_missing_eval clock oracle fuel p cv e hext

/-- Witness for C9: a nested dict with a past date at `$.token.expiration`
is expired; an object with a future date at attribute `expiration` is not;
a missing path raises `ExtractionError`. -/
theorem C9_attribute_path_expiry_witness :
    isValueExpired ⟨0, 0⟩ (fun _ _ => .ok .none) 1
        (.syncAttr "$.token.expiration")
        ⟨some 1000, .dict [("token", .dict [("expiration", .datetime 900)])],
          false⟩
      = .ok true ∧
    isValueExpired ⟨0, 0⟩ (fun _ _ => .ok .none) 1
        (.syncAttr "expiration")
        ⟨some 1000, .obj [("expiration", .datetime 2000)], false⟩
      = .ok false ∧
    isValueExpired ⟨0, 0⟩ (fun _ _ => .ok .none) 1
        (.syncAttr "$.missing")
        ⟨some 1000, .dict [("a", .int 1)], false⟩
      = .error (.extractionError "missing") := by
  refine ⟨?_, ?_, ?_⟩
  · exact C9_attribute_path_expiry.1 ⟨0, 0⟩ (fun _ _ => .ok .none) 0
      "$.token.expiration"
      ⟨some 1000, .dict [("token", .dict [("expiration", .datetime 900)])],
        false⟩ 900 1000 rfl rfl (by norm_num)
  · exact C9_attribute_path_expiry.2.1 ⟨0, 0⟩ (fun _ _ => .ok .none) 0
      "expiration" ⟨some 1000, .obj [("expiration", .datetime 2000)], false⟩
      2000 1000 rfl rfl (by norm_num)
  · exact C9_attribute_path_expiry.2.2 ⟨0, 0⟩ (fun _ _ => .ok .none) 0
      "$.missing" ⟨some 1000, .dict [("a", .int 1)], false⟩
      (.extractionError "missing") rfl

/-!
## Claim C4: the two record implementations
-/

namespace AsyncFlight

theorem lt_of_getq_some {α : Type} {l : List α} {i : Nat} {a : α}
    (h : l.get? i = some a) : i < l.length := by
  by_contra hge
  rw [List.get?_eq_none.mpr (by omega)] at h
  exact Option.noConfusion h

theorem getq_set_same {α : Type} (l : List α) (i : Nat) (a : α)
    (h : i < l.length) : (l.set i a).get? i = some a := by
  rw [List.get?_eq_getElem?, List.getElem?_set_self h]

theorem getq_set_other {α : Type} (l : List α) (i j : Nat) (a : α)
    (h : i ≠ j) : (l.set i a).get? j = l.get? j := by
  rw [List.get?_eq_getElem?, List.getElem?_set_ne h, ← List.get?_eq_getElem?]

theorem getq_replicate {α : Type} (n i : Nat) (a : α) :
    (List.replicate n a).get? i = if i < n then some a else none := by
  rw [List.get?_eq_getElem?, List.getElem?_replicate]

/-- Entering the fetch from the generation's starting cached value (empty,
or held and expired): the task reaches `enterFetch`. -/
theorem startEnters (cfg : MachineCfg) (cv0 : CachedValueM)
    (hstart : cv0.lastFetched = Option.none
      ∨ isExpiredEval cfg cv0 = .ok true)
    (c : AConfig) (tid : Nat) (hc : c.cached = cv0)
    (hlp : c.lockPoisoned = false)
    (hget : c.tasks.get? tid = some .start) :
    step cfg c tid
      = match c.inflight with
        | some e => { c with tasks := c.tasks.set tid (.waitEvent e) }
        | Option.none =>
            { c with inflight := some c.events.length
                     events := c.events ++ [false]
                     callCount := c.callCount + 1
                     tasks := c.tasks.set tid (.running 0 c.callCount) } := by
  unfold step
  rw [hget]
  dsimp only
  rw [if_neg (by rw [hlp]; simp)]
  rw [hc]
  rcases hstart with hnone | hexp
  · rw [hnone]
  · cases hsome : cv0.lastFetched with
    | none =>
        have hff : isExpiredEval cfg cv0 = .ok false := by
          unfold isExpiredEval
          rw [hsome]
        exact absurd (hff.symm.trans hexp) (by simp)
    | some t =>
        dsimp only
        rw [hexp]

/-- A step from phase A stays in A (out-of-range task id) or enters B. -/
theorem stepInvA (cfg : MachineCfg) (n : Nat) (cv0 : CachedValueM)
    (hstart : cv0.lastFetched = Option.none
      ∨ isExpiredEval cfg cv0 = .ok true)
    (c : AConfig) (tid : Nat)
    (h : InvA n cv0 c) :
    InvA n cv0 (step cfg c tid) ∨ InvB n cv0 (step cfg c tid) := by
  obtain ⟨hc, hi, he, hcc, hlp, hts⟩ := h
  by_cases htid : tid < n
  · right
    have hget : c.tasks.get? tid = some .start := by
      rw [hts, getq_replicate, if_pos htid]
    have hstep : step cfg c tid
        = { c with inflight := some 0, events := [false], callCount := 1
                   tasks := c.tasks.set tid (.running 0 0) } := by
      rw [startEnters cfg cv0 hstart c tid hc hlp hget, hi]
      dsimp only
      rw [he, hcc]
      rfl
    rw [hstep]
    refine ⟨hc, rfl, rfl, rfl, hlp, ?_, tid, htid, ?_, ?_⟩
    · simp [hts]
    · apply getq_set_same
      rw [hts, List.length_replicate]
      exact htid
    · intro q t hq hgq
      rw [getq_set_other _ _ _ _ (fun hh => hq hh.symm)] at hgq
      rw [hts, getq_replicate] at hgq
      by_cases hqn : q < n
      · rw [if_pos hqn] at hgq
        exact .inl (Option.some.inj hgq).symm
      · rw [if_neg hqn] at hgq
        exact Option.noConfusion hgq
  · left
    have hget : c.tasks.get? tid = none := by
      rw [hts, getq_replicate, if_neg htid]
    have hstep : step cfg c tid = c := by
      unfold step
      rw [hget]
    rw [hstep]
    exact ⟨hc, hi, he, hcc, hlp, hts⟩

/-- A step from phase B stays in B or completes the store and enters C. -/
theorem stepInvB (cfg : MachineCfg) (n : Nat) (cv0 : CachedValueM)
    (w : PyVal) (isErr : Bool) (prodRes : TaskResult)
    (hstart : cv0.lastFetched = Option.none
      ∨ isExpiredEval cfg cv0 = .ok true)
    (hout : cfg.outcome 0 = (if isErr then .error w else .ok w))
    (hret : isErr = true → (0 : Int) ≥ cfg.retries)
    (hprod : prodRes = (if isErr && cfg.fail then .raised w else .normal w))
    (c : AConfig) (tid : Nat) (h : InvB n cv0 c) :
    InvB n cv0 (step cfg c tid)
      ∨ InvC n w isErr prodRes cfg.now (step cfg c tid) := by
  obtain ⟨hc, hi, he, hcc, hlp, hlen, p, hp, hrun, hoth⟩ := h
  cases hget : c.tasks.get? tid with
  | none =>
      left
      have hstep : step cfg c tid = c := by
        unfold step
        rw [hget]
      rw [hstep]
      exact ⟨hc, hi, he, hcc, hlp, hlen, p, hp, hrun, hoth⟩
  | some t =>
      by_cases htp : tid = p
      · subst htp
        rw [hrun] at hget
        have ht : t = .running 0 0 := (Option.some.inj hget).symm
        subst ht
        right
        have hplen : tid < c.tasks.length := lt_of_getq_some hrun
        cases hisErr : isErr with
        | false =>
            rw [hisErr] at hout hprod
            simp only [Bool.false_and, if_false] at hout hprod
            have hstep : step cfg c tid
                = { c with cached := ⟨some cfg.now, w, false⟩
                           inflight := Option.none, events := [true]
                           tasks := c.tasks.set tid (.done (.normal w)) } := by
              unfold step
              rw [hrun]
              dsimp only
              rw [hout]
              try dsimp only
              unfold completeStore
              rw [hi]
              try dsimp only
              rw [he]
              rfl
            rw [hstep]
            refine ⟨rfl, rfl, rfl, hcc, hlp, ?_, tid, hp, ?_, ?_⟩
            · rw [List.length_set]
              exact hlen
            · rw [hprod]
              exact getq_set_same _ _ _ hplen
            · intro q t' hq hgq
              rw [getq_set_other _ _ _ _ (fun hh => hq hh.symm)] at hgq
              rcases hoth q t' hq hgq with h1 | h1
              · exact .inl h1
              · exact .inr (.inl h1)
        | true =>
            rw [hisErr] at hout hprod
            simp only [Bool.true_and, if_true] at hout hprod
            have hstep : step cfg c tid
                = { c with cached := ⟨some cfg.now, w, true⟩
                           inflight := Option.none, events := [true]
                           tasks := c.tasks.set tid (.done prodRes) } := by
              unfold step
              rw [hrun]
              dsimp only
              rw [hout]
              dsimp only
              rw [if_pos (show ((0 : Nat) : Int) ≥ cfg.retries by
                simpa using hret hisErr)]
              unfold completeStore
              rw [hi]
              try dsimp only
              rw [he, hprod]
              cases hf : cfg.fail <;> rfl
            rw [hstep]
            refine ⟨rfl, rfl, rfl, hcc, hlp, ?_, tid, hp, ?_, ?_⟩
            · rw [List.length_set]
              exact hlen
            · exact getq_set_same _ _ _ hplen
            · intro q t' hq hgq
              rw [getq_set_other _ _ _ _ (fun hh => hq hh.symm)] at hgq
              rcases hoth q t' hq hgq with h1 | h1
              · exact .inl h1
              · exact .inr (.inl h1)
      · rcases hoth tid t htp hget with ht | ht
        · subst ht
          left
          have hstep : step cfg c tid
              = { c with tasks := c.tasks.set tid (.waitEvent 0) } := by
            rw [startEnters cfg cv0 hstart c tid hc hlp hget, hi]
          rw [hstep]
          refine ⟨hc, hi, he, hcc, hlp, ?_, p, hp, ?_, ?_⟩
          · rw [List.length_set]
            exact hlen
          · rw [getq_set_other _ _ _ _ htp]
            exact hrun
          · intro q t' hq hgq
            by_cases hqt : q = tid
            · subst hqt
              rw [getq_set_same _ _ _ (lt_of_getq_some hget)] at hgq
              exact .inr (Option.some.inj hgq).symm
            · rw [getq_set_other _ _ _ _ (fun hh => hqt hh.symm)] at hgq
              exact hoth q t' hq hgq
        · subst ht
          left
          have hstep : step cfg c tid = c := by
            unfold step
            rw [hget]
            try dsimp only
            rw [he]
            rfl
          rw [hstep]
          exact ⟨hc, hi, he, hcc, hlp, hlen, p, hp, hrun, hoth⟩

/-- A step from phase C stays in C. -/
theorem stepInvC (cfg : MachineCfg) (n : Nat) (w : PyVal) (isErr : Bool)
    (prodRes : TaskResult)
    (hfresh : isExpiredEval cfg ⟨some cfg.now, w, isErr⟩ = .ok false)
    (c : AConfig) (tid : Nat) (h : InvC n w isErr prodRes cfg.now c) :
    InvC n w isErr prodRes cfg.now (step cfg c tid) := by
  obtain ⟨hc, hi, he, hcc, hlp, hlen, p, hp, hpd, hoth⟩ := h
  cases hget : c.tasks.get? tid with
  | none =>
      have hstep : step cfg c tid = c := by
        unfold step
        rw [hget]
      rw [hstep]
      exact ⟨hc, hi, he, hcc, hlp, hlen, p, hp, hpd, hoth⟩
  | some t =>
      by_cases htp : tid = p
      · subst htp
        rw [hpd] at hget
        have ht : t = .done prodRes := (Option.some.inj hget).symm
        subst ht
        have hstep : step cfg c tid = c := by
          unfold step
          rw [hpd]
        rw [hstep]
        exact ⟨hc, hi, he, hcc, hlp, hlen, tid, hp, hpd, hoth⟩
      · rcases hoth tid t htp hget with ht | ht | ht
        · subst ht
          have hstep : step cfg c tid
              = { c with tasks :=
                    c.tasks.set tid (.done (.normal w)) } := by
            unfold step
            rw [hget]
            dsimp only
            rw [if_neg (by rw [hlp]; simp)]
            rw [hc]
            try dsimp only
            rw [hfresh]
            try rfl
          rw [hstep]
          refine ⟨hc, hi, he, hcc, hlp, ?_, p, hp, ?_, ?_⟩
          · rw [List.length_set]
            exact hlen
          · rw [getq_set_other _ _ _ _ htp]
            exact hpd
          · intro q t' hq hgq
            by_cases hqt : q = tid
            · subst hqt
              rw [getq_set_same _ _ _ (lt_of_getq_some hget)] at hgq
              exact .inr (.inr (Option.some.inj hgq).symm)
            · rw [getq_set_other _ _ _ _ (fun hh => hqt hh.symm)] at hgq
              exact hoth q t' hq hgq
        · subst ht
          have hstep : step cfg c tid
              = { c with tasks :=
                    c.tasks.set tid (.done (.normal w)) } := by
            unfold step
            rw [hget]
            try dsimp only
            rw [he, hc]
            rfl
          rw [hstep]
          refine ⟨hc, hi, he, hcc, hlp, ?_, p, hp, ?_, ?_⟩
          · rw [List.length_set]
            exact hlen
          · rw [getq_set_other _ _ _ _ htp]
            exact hpd
          · intro q t' hq hgq
            by_cases hqt : q = tid
            · subst hqt
              rw [getq_set_same _ _ _ (lt_of_getq_some hget)] at hgq
              exact .inr (.inr (Option.some.inj hgq).symm)
            · rw [getq_set_other _ _ _ _ (fun hh => hqt hh.symm)] at hgq
              exact hoth q t' hq hgq
        · subst ht
          have hstep : step cfg c tid = c := by
            unfold step
            rw [hget]
          rw [hstep]
          exact ⟨hc, hi, he, hcc, hlp, hlen, p, hp, hpd, hoth⟩

/-- One step preserves the single-flight invariant. -/
theorem step_inv (cfg : MachineCfg) (n : Nat) (cv0 : CachedValueM)
    (w : PyVal) (isErr : Bool) (prodRes : TaskResult)
    (hstart : cv0.lastFetched = Option.none
      ∨ isExpiredEval cfg cv0 = .ok true)
    (hout : cfg.outcome 0 = (if isErr then .error w else .ok w))
    (hret : isErr = true → (0 : Int) ≥ cfg.retries)
    (hprod : prodRes = (if isErr && cfg.fail then .raised w else .normal w))
    (hfresh : isExpiredEval cfg ⟨some cfg.now, w, isErr⟩ = .ok false)
    (c : AConfig) (tid : Nat)
    (h : Inv n cv0 w isErr prodRes cfg.now c) :
    Inv n cv0 w isErr prodRes cfg.now (step cfg c tid) := by
  rcases h with hA | hB | hC
  · rcases stepInvA cfg n cv0 hstart c tid hA with h' | h'
    · exact .inl h'
    · exact .inr (.inl h')
  · rcases stepInvB cfg n cv0 w isErr prodRes hstart hout hret hprod c tid
      hB with h' | h'
    · exact .inr (.inl h')
    · exact .inr (.inr h')
  · exact .inr (.inr (stepInvC cfg n w isErr prodRes hfresh c tid hC))

/-- Every schedule preserves the single-flight invariant. -/
theorem run_inv (cfg : MachineCfg) (n : Nat) (cv0 : CachedValueM)
    (w : PyVal) (isErr : Bool) (prodRes : TaskResult)
    (hstart : cv0.lastFetched = Option.none
      ∨ isExpiredEval cfg cv0 = .ok true)
    (hout : cfg.outcome 0 = (if isErr then .error w else .ok w))
    (hret : isErr = true → (0 : Int) ≥ cfg.retries)
    (hprod : prodRes = (if isErr && cfg.fail then .raised w else .normal w))
    (hfresh : isExpiredEval cfg ⟨some cfg.now, w, isErr⟩ = .ok false)
    (sched : List Nat) :
    ∀ c, Inv n cv0 w isErr prodRes cfg.now c →
      Inv n cv0 w isErr prodRes cfg.now (run cfg c sched) := by
  induction sched with
  | nil => exact fun c h => h
  | cons s rest ih =>
      intro c h
      exact ih (step cfg c s)
        (step_inv cfg n cv0 w isErr prodRes hstart hout hret hprod hfresh
          c s h)

/-- An all-done configuration satisfying the invariant is in phase C with
every task completed: the function ran once, one producer finished with
`prodRes`, everyone else returned the stored value normally. -/
theorem final_all_done (cfg : MachineCfg) (n : Nat) (cv0 : CachedValueM)
    (w : PyVal) (isErr : Bool) (prodRes : TaskResult) (hn : 1 ≤ n)
    (c : AConfig)
    (hinv : Inv n cv0 w isErr prodRes cfg.now c)
    (hdone : ∀ t ∈ c.tasks, ∃ r, t = .done r) :
    c.callCount = 1 ∧ c.cached = ⟨some cfg.now, w, isErr⟩ ∧
    c.tasks.length = n ∧
    ∃ p, p < n ∧ c.tasks.get? p = some (.done prodRes) ∧
      ∀ q t, q ≠ p → c.tasks.get? q = some t →
        t = .done (.normal w) := by
  rcases hinv with hA | hB | hC
  · exfalso
    obtain ⟨_, _, _, _, _, hts⟩ := hA
    have hmem : (ATask.start) ∈ c.tasks := by
      rw [hts]
      exact List.mem_replicate.mpr ⟨by omega, rfl⟩
    obtain ⟨r, hr⟩ := hdone _ hmem
    exact ATask.noConfusion hr
  · exfalso
    obtain ⟨_, _, _, _, _, _, p, _, hrun, _⟩ := hB
    obtain ⟨r, hr⟩ := hdone _ (List.get?_mem hrun)
    exact ATask.noConfusion hr
  · obtain ⟨hc, hi, he, hcc, hlp, hlen, p, hp, hpd, hoth⟩ := hC
    refine ⟨hcc, hc, hlen, p, hp, hpd, ?_⟩
    intro q t hq hgq
    rcases hoth q t hq hgq with ht | ht | ht
    · exfalso
      subst ht
      obtain ⟨r, hr⟩ := hdone _ (List.get?_mem hgq)
      exact ATask.noConfusion hr
    · exfalso
      subst ht
      obtain ⟨r, hr⟩ := hdone _ (List.get?_mem hgq)
      exact ATask.noConfusion hr
    · exact ht

end AsyncFlight

/-- C1: for every number of tasks `n ≥ 1`, every starting cached value
`cv0` that is either absent (`last_fetched = None`) or expired — the
`Empty` and expired-`Ready` starts of a generation — and every scheduler
interleaving that completes all tasks, the underlying function (whose
invocation `0` returns `v`, still fresh when stored) is invoked exactly
once, and every one of the `n` concurrent `get_cached()` callers ends with
that same value `v`. -/
theorem C1_single_flight (cfg : AsyncFlight.MachineCfg) (n : Nat)
    (hn : 1 ≤ n) (cv0 : CachedValueM) (v : PyVal)
    (hstart : cv0.lastFetched = Option.none
      ∨ AsyncFlight.isExpiredEval cfg cv0 = .ok true)
    (hout : cfg.outcome 0 = .ok v)
    (hfresh : AsyncFlight.isExpiredEval cfg ⟨some cfg.now, v, false⟩
      = .ok false)
    (sched : List Nat)
    (hdone : ∀ t ∈ (AsyncFlight.run cfg (AsyncFlight.initFrom cv0 n)
        sched).tasks, ∃ r, t = .done r) :
    (AsyncFlight.run cfg (AsyncFlight.initFrom cv0 n) sched).callCount
      = 1 ∧
    (AsyncFlight.run cfg (AsyncFlight.initFrom cv0 n) sched).tasks
      = List.replicate n (.done (.normal v)) := by
  have hinv0 : AsyncFlight.Inv n cv0 v false (.normal v) cfg.now
      (AsyncFlight.initFrom cv0 n) :=
    .inl ⟨rfl, rfl, rfl, rfl, rfl, rfl⟩
  have hinv := AsyncFlight.run_inv cfg n cv0 v false (.normal v) hstart
    hout (fun h => nomatch h) rfl hfresh sched (AsyncFlight.initFrom cv0 n)
    hinv0
  obtain ⟨hcc, _, hlen, p, hp, hpd, hoth⟩ :=
    AsyncFlight.final_all_done cfg n cv0 v false (.normal v) hn _ hinv
      hdone
  refine ⟨hcc, ?_⟩
  rw [List.eq_replicate_iff]
  refine ⟨hlen, ?_⟩
  intro b hb
  obtain ⟨q, hq⟩ := List.mem_iff_get?.mp hb
  by_cases hqp : q = p
  · subst hqp
    exact Option.some.inj (hq.symm.trans hpd)
  · exact hoth q b hqp hq

/-- Witness for C1, covering both named starts with two tasks and schedule
`[0, 1, 0, 1]` (task 0 starts the fetch, task 1 waits on the event, task 0
completes the store, task 1 wakes): from the empty record, and from an
expired-`Ready` record holding a stale cached error (always-expired
negative policy), the function runs once and both callers end with `42`. -/
theorem C1_single_flight_witness :
    ((AsyncFlight.run c1Cfg
        (AsyncFlight.initFrom ⟨Option.none, .none, false⟩ 2)
        [0, 1, 0, 1]).callCount = 1 ∧
      (AsyncFlight.run c1Cfg
        (AsyncFlight.initFrom ⟨Option.none, .none, false⟩ 2)
        [0, 1, 0, 1]).tasks
        = List.replicate 2 (.done (.normal (.int 42)))) ∧
    ((AsyncFlight.run c1CfgExp
        (AsyncFlight.initFrom ⟨some (-5), .exception "stale", true⟩ 2)
        [0, 1, 0, 1]).callCount = 1 ∧
      (AsyncFlight.run c1CfgExp
        (AsyncFlight.initFrom ⟨some (-5), .exception "stale", true⟩ 2)
        [0, 1, 0, 1]).tasks
        = List.replicate 2 (.done (.normal (.int 42)))) := by
  constructor
  · exact C1_single_flight c1Cfg 2 (by decide) ⟨Option.none, .none, false⟩
      (.int 42) (.inl rfl) rfl rfl [0, 1, 0, 1]
      (by
        intro t ht
        have hts : (AsyncFlight.run c1Cfg
            (AsyncFlight.initFrom ⟨Option.none, .none, false⟩ 2)
            [0, 1, 0, 1]).tasks
            = [.done (.normal (.int 42)), .done (.normal (.int 42))] := rfl
        rw [hts] at ht
        rcases List.mem_cons.mp ht with h | h
        · exact ⟨.normal (.int 42), h⟩
        · rcases List.mem_cons.mp h with h' | h'
          · exact ⟨.normal (.int 42), h'⟩
          · exact absurd h' (List.not_mem_nil t))
  · exact C1_single_flight c1CfgExp 2 (by decide)
      ⟨some (-5), .exception "stale", true⟩ (.int 42) (.inr rfl) rfl rfl
      [0, 1, 0, 1]
      (by
        intro t ht
        have hts : (AsyncFlight.run c1CfgExp
            (AsyncFlight.initFrom ⟨some (-5), .exception "stale", true⟩ 2)
            [0, 1, 0, 1]).tasks
            = [.done (.normal (.int 42)), .done (.normal (.int 42))] := rfl
        rw [hts] at ht
        rcases List.mem_cons.mp ht with h | h
        · exact ⟨.normal (.int 42), h⟩
        · rcases List.mem_cons.mp h with h' | h'
          · exact ⟨.normal (.int 42), h'⟩
          · exact absurd h' (List.not_mem_nil t))

/-- Counterexample to C3 as stated: with `fail` set and an always-raising
function, the producer raises but the consumer that waited on the inflight
event receives the captured error object as a **normal** return value
(`await event.wait(); return value` performs no raise). -/
theorem C3_counterexample_consumer_normal_return :
    (AsyncFlight.run c3Cfg (AsyncFlight.init 2) [0, 1, 0, 1]).tasks
      = [.done (.raised (.exception "boom")),
         .done (.normal (.exception "boom"))] ∧
    (AsyncFlight.run c3Cfg (AsyncFlight.init 2) [0, 1, 0, 1]).callCount
      = 1 :=
  ⟨rfl, rfl⟩

/-- C3, amended: when the single fetch finalizes with `isError = true` and
`fail` is set (error still cached unexpired), in every completed
interleaving exactly one caller — the producer — raises the error; every
other caller (waiters on the inflight signal and later readers of the
still-cached error) receives the same error object as a normal return
value, and the function is invoked exactly once. -/
theorem C3_amended_only_producer_raises (cfg : AsyncFlight.MachineCfg)
    (n : Nat) (hn : 1 ≤ n) (e : PyVal)
    (hout : cfg.outcome 0 = .error e) (hfail : cfg.fail = true)
    (hret : (0 : Int) ≥ cfg.retries)
    (hfresh : AsyncFlight.isExpiredEval cfg ⟨some cfg.now, e, true⟩
      = .ok false)
    (sched : List Nat)
    (hdone : ∀ t ∈ (AsyncFlight.run cfg (AsyncFlight.init n) sched).tasks,
      ∃ r, t = .done r) :
    (AsyncFlight.run cfg (AsyncFlight.init n) sched).callCount = 1 ∧
    ∃ p, p < n ∧
      (AsyncFlight.run cfg (AsyncFlight.init n) sched).tasks.get? p
        = some (.done (.raised e)) ∧
      ∀ q t, q ≠ p →
        (AsyncFlight.run cfg (AsyncFlight.init n) sched).tasks.get? q
          = some t → t = .done (.normal e) := by
  have hinv0 : AsyncFlight.Inv n ⟨Option.none, .none, false⟩ e true
      (.raised e) cfg.now (AsyncFlight.init n) :=
    .inl ⟨rfl, rfl, rfl, rfl, rfl, rfl⟩
  have hprod : AsyncFlight.TaskResult.raised e
      = (if true && cfg.fail then AsyncFlight.TaskResult.raised e
         else AsyncFlight.TaskResult.normal e) := by
    simp [hfail]
  have hinv := AsyncFlight.run_inv cfg n ⟨Option.none, .none, false⟩ e true
    (.raised e) (.inl rfl) hout (fun _ => hret) hprod hfresh sched
    (AsyncFlight.init n) hinv0
  obtain ⟨hcc, _, hlen, p, hp, hpd, hoth⟩ :=
    AsyncFlight.final_all_done cfg n ⟨Option.none, .none, false⟩ e true
      (.raised e) hn _ hinv hdone
  exact ⟨hcc, p, hp, hpd, hoth⟩

/-- Witness for the amended C3: two tasks, schedule `[0, 1, 0, 1]`: the
producer (task 0) raises, the waiting consumer (task 1) returns the same
error object normally, one invocation in total. -/
theorem C3_amended_only_producer_raises_witness :
    (AsyncFlight.run c3Cfg (AsyncFlight.init 2) [0, 1, 0, 1]).callCount
      = 1 ∧
    ∃ p, p < 2 ∧
      (AsyncFlight.run c3Cfg (AsyncFlight.init 2)
          [0, 1, 0, 1]).tasks.get? p
        = some (.done (.raised (.exception "boom"))) ∧
      ∀ q t, q ≠ p →
        (AsyncFlight.run c3Cfg (AsyncFlight.init 2)
            [0, 1, 0, 1]).tasks.get? q = some t →
          t = .done (.normal (.exception "boom")) :=
  C3_amended_only_producer_raises c3Cfg 2 (by decide) (.exception "boom")
    rfl rfl (by decide)
    (by norm_num [AsyncFlight.isExpiredEval, isValueExpired, PyEnv.clock,
      c3Cfg])
    [0, 1, 0, 1]
    (by
      intro t ht
      have hts : (AsyncFlight.run c3Cfg (AsyncFlight.init 2)
          [0, 1, 0, 1]).tasks
          = [.done (.raised (.exception "boom")),
             .done (.normal (.exception "boom"))] := rfl
      rw [hts] at ht
      rcases List.mem_cons.mp ht with h | h
      · exact ⟨.raised (.exception "boom"), h⟩
      · rcases List.mem_cons.mp h with h' | h'
        · exact ⟨.normal (.exception "boom"), h'⟩
        · exact absurd h' (List.not_mem_nil t))

end Aquiche
